import Mathlib

/-!
Verification development for the RadialDuplicator Blender add-on.

The definitions below are a shallow embedding of the construct-model layer
(radial_array_object.py, radial_duplicates_object.py, radial_screw_object.py),
the builder sorting logic (radial_array_builder.py) and the modal operator
state machine (radial_array_modal.py).  Python floats are modelled by exact
rationals where the code only does field arithmetic and comparisons, and by
real numbers where trigonometry and square roots are involved (matrices,
normalisation).  Blender scene objects are modelled by explicit state records;
an operation that mutates the scene becomes a function from states to states.
-/

namespace RadialDup

/-! ## Rational helpers (Python round and math.radians constants) -/

/-- Banker rounding of a rational to an integer, as the Python builtin round
performs on a float: round half to even. -/
def pyRound (q : ℚ) : ℤ :=
  let f : ℤ := ⌊q⌋
  let r : ℚ := q - f
  if r < 1/2 then f
  else if 1/2 < r then f + 1
  else if f % 2 = 0 then f else f + 1

/-- Python round(x, 5): round to five decimal places, half to even. -/
def round5 (q : ℚ) : ℚ := (pyRound (q * 100000) : ℚ) / 100000

/-- Exact value of the IEEE-754 double produced by math.radians(360) in Python,
the constant both full-circle tests compare against. -/
def radians360 : ℚ := 884279719003555 / 140737488355328

/-! ## Enumerations shared by the construct models -/

/-- Spin axis enumeration (X, Y, Z). -/
inductive Axis
  | X
  | Y
  | Z
deriving DecidableEq

/-- Duplicates-rotation mode of a Duplicates construct. -/
inductive RotMode
  | FOLLOW
  | KEEP
  | RANDOM
deriving DecidableEq

/-- Spin orientation enumeration stored in the property groups. -/
inductive Orientation
  | GLOBAL
  | LOCAL
  | VIEW
  | NORMAL
deriving DecidableEq

/-- Symbolic pivot points accepted by set_pivot_point and the modal operator. -/
inductive PivotSym
  | ORIGIN
  | CURSOR
  | MESH_SELECTION
  | ACTIVE_OBJECT
  | CENTER_EMPTY
deriving DecidableEq

/-- Rational 3-vector: used where the code only stores and copies coordinates
(pivot snapshots, typed property data). -/
structure V3Q where
  x : ℚ
  y : ℚ
  z : ℚ
deriving DecidableEq

/-! ## Property records (properties.py property groups, numeric part)

The spin_orientation_matrix_object entry of a property group is raw matrix
storage that the claims treat as an opaque cached value; it is modelled as a
separate field of the surrounding state records. -/

/-- Numeric fields of RadialArrayPropsGroup used by RadialArrayOffsetEmpty.refresh
and RadialArrayArrayMod.refresh. -/
structure ArrayProps where
  spin_axis : Axis
  count : ℕ
  radius_offset : ℚ
  start_angle : ℚ
  end_angle : ℚ
  height_offset : ℚ
deriving DecidableEq

/-- Numeric fields read by RadialDuplicatesDuplicatedObjects (the shipped
properties.py lags behind this module: duplicates_rotation, end_scale and the
radius key are read by radial_duplicates_object.py, so they are modelled as
the code expects them). -/
structure DupProps where
  spin_axis : Axis
  duplicates_rotation : RotMode
  count : ℕ
  end_angle : ℚ
  end_scale : ℚ
  height_offset : ℚ
  radius : ℚ
deriving DecidableEq

/-- Numeric fields of RadialScrewPropsGroup used by RadialScrewScrewMod.refresh. -/
structure ScrewProps where
  spin_axis : Axis
  steps : ℕ
  radius_offset : ℚ
  start_angle : ℚ
  end_angle : ℚ
  screw_offset : ℚ
  iterations : ℕ
deriving DecidableEq

/-! ## Angular step computation (C1, C10)

Source: radial_array_object.py lines 459-469 and
radial_duplicates_object.py lines 253-259. -/

/-- Full-circle test of RadialArrayOffsetEmpty.refresh:
round(end_angle, 5) == round(radians(360), 5) and start_angle == 0
and height_offset == 0. -/
def fullCircleArray (p : ArrayProps) : Bool :=
  round5 p.end_angle == round5 radians360 && p.start_angle == 0 && p.height_offset == 0

/-- Spin angle of RadialArrayOffsetEmpty.refresh (only evaluated by the code
under the count > 1 guard):
full circle: end_angle / count - start_angle / (count - 1);
otherwise:   end_angle / (count - 1) - start_angle / (count - 1). -/
def spinAngleArray (p : ArrayProps) : ℚ :=
  if fullCircleArray p then
    p.end_angle / (p.count : ℚ) - p.start_angle / ((p.count : ℚ) - 1)
  else
    p.end_angle / ((p.count : ℚ) - 1) - p.start_angle / ((p.count : ℚ) - 1)

/-- Full-circle test of RadialDuplicatesDuplicatedObjects._set_transforms:
round(end_angle, 5) == round(radians(360), 5) and height_offset == 0
(a Duplicates construct has no start angle). -/
def fullCircleDup (p : DupProps) : Bool :=
  round5 p.end_angle == round5 radians360 && p.height_offset == 0

/-- Step angle of RadialDuplicatesDuplicatedObjects._set_transforms (only
evaluated by the code under the count > 1 guard). -/
def stepAngleDup (p : DupProps) : ℚ :=
  if fullCircleDup p then
    p.end_angle / (p.count : ℚ)
  else
    p.end_angle / ((p.count : ℚ) - 1)

/-- np.linspace(a, b, n) sampled at index i (used for the spaced end scale). -/
def linspace (a b : ℚ) (n : ℕ) (i : ℕ) : ℚ :=
  if n ≤ 1 then a else a + (b - a) * (i : ℚ) / ((n : ℚ) - 1)

/-! ## Typed count entry in the modal operator (C7)

Source: radial_array_modal.py lines 536-560.  The Python typed_string buffer
is a string of decimal digits or None; it is modelled as an optional list of
digits, and int() on the buffer as the usual base-10 fold. -/

/-- Key events relevant to the typed count entry. -/
inductive CountKey
  | digit (d : ℕ)
  | backspace

/-- State of the typed count entry inside a modal session. -/
structure CountEntry where
  count : ℕ
  countBeforeTyping : ℕ
  typedDigits : Option (List ℕ)
deriving DecidableEq

/-- Base-10 value of a digit buffer, as int() on the typed string. -/
def digitsToNat (ds : List ℕ) : ℕ := ds.foldl (fun a d => 10 * a + d) 0

/-- One step of the digit / backspace handling of the modal event loop:

digit d with no open buffer: if d is nonzero, remember the current count,
set count to d, open the buffer with d (a leading zero is ignored);
digit d with an open buffer: append and reparse;
backspace with no open buffer: nothing;
backspace with a nonempty buffer: drop the last digit, set count to the
reparsed buffer if it is nonempty and to 1 otherwise;
backspace with an open empty buffer: restore the pre-typing count and
close the buffer. -/
def countEntryStep (s : CountEntry) (e : CountKey) : CountEntry :=
  match e with
  | CountKey.digit d =>
      match s.typedDigits with
      | none =>
          if d ≠ 0 then
            { count := d, countBeforeTyping := s.count, typedDigits := some [d] }
          else s
      | some ds =>
          { s with count := digitsToNat (ds ++ [d]), typedDigits := some (ds ++ [d]) }
  | CountKey.backspace =>
      match s.typedDigits with
      | none => s
      | some ds =>
          match ds with
          | [] => { s with count := s.countBeforeTyping, typedDigits := none }
          | _ :: _ =>
              let ds2 := ds.dropLast
              { s with
                count := if ds2.isEmpty then 1 else digitsToNat ds2,
                typedDigits := some ds2 }

/-- Successive count values (initial one included) along a sequence of events. -/
def countEntryTrace (s : CountEntry) : List CountKey → List ℕ
  | [] => [s.count]
  | e :: es => s.count :: countEntryTrace (countEntryStep s e) es

/-! ## Apply message of the host modifier (C4)

Source: radial_array_object.py lines 286-299 (RadialArrayArrayMod.apply) and
radial_screw_object.py lines 267-279 (RadialScrewScrewMod.apply): both emit
the same message under the same index test and then apply the modifier
unconditionally.  The modifier stack is the list of modifier names in stack
order, index 0 being the top of the stack. -/

/-- Warning text returned when the applied modifier was not first. -/
def notFirstMessage : String := "Applied modifier was not first, result may not be as expected"

/-- Blender ob.modifiers.find: index of the named modifier, -1 if absent. -/
def bpyFind (stack : List String) (name : String) : ℤ :=
  if name ∈ stack then (stack.indexOf name : ℤ) else -1

/-- Shallow embedding of RadialArrayArrayMod.apply / RadialScrewScrewMod.apply:
returns the informational message (empty when the modifier is first in the
stack) and the stack after bpy.ops.object.modifier_apply removed the modifier.
The apply operation itself runs in both cases. -/
def modifierApply (stack : List String) (name : String) : String × List String :=
  (if 0 < bpyFind stack name then notFirstMessage else "", stack.erase name)

/-! ## Pivot point resolution in the modal session (C5)

Source: radial_array_modal.py lines 387-413 (get_pivot_point). -/

/-- Result of get_pivot_point: None (keep the pivot, no re-resolution), a
stored world coordinate, or a symbol to be re-resolved against the scene. -/
inductive PivotArg
  | keep
  | coord (v : V3Q)
  | symbol (s : PivotSym)
deriving DecidableEq

/-- Shallow embedding of get_pivot_point.  Arguments: the last pivot symbol
set for this construct during the session (None if never set), the pivot
symbol currently selected in the operator, and the initial-attributes
snapshot of the construct (pivot symbol at session start and the world
coordinate it resolved to then). -/
def getPivotPoint (lastSet : Option PivotSym) (current : PivotSym)
    (initialAttrs : Option (PivotSym × V3Q)) : PivotArg :=
  if lastSet = some current then PivotArg.keep
  else
    match initialAttrs with
    | some ia =>
        if current = PivotSym.ORIGIN ∧ ia.1 = PivotSym.ORIGIN then PivotArg.coord ia.2
        else if current = PivotSym.CENTER_EMPTY ∧ ia.1 = PivotSym.CENTER_EMPTY then
          PivotArg.coord ia.2
        else PivotArg.symbol current
    | none => PivotArg.symbol current

/-! ## Modifier stack sorting in the builder (C9)

Source: radial_array_builder.py lines 182-213 (sort_array_mod).  The helper
get_modifier_index is imported from utils/object.py but is absent from the
source tree. -/

/-- Kinds of host modifiers relevant to sort_array_mod. -/
inductive ModType
  | ARRAY
  | SCREW
  | MIRROR
  | NODES
  | OTHER
deriving DecidableEq

/-- A host modifier: its name, its kind, and (for mirror modifiers) whether
its mirror_object field is None. -/
structure Mod where
  name : String
  type : ModType
  mirrorObjectIsNone : Bool
deriving DecidableEq

/-- Position argument of get_modifier_index. -/
inductive Position
  | AFTER
  | BEFORE
deriving DecidableEq

/-- Modelled from the spec: get_modifier_index is imported from
utils/object.py, which the source tree ships without this function.  The spec
says the builder re-sorts a modifier to sit immediately after the reference
modifier (or immediately before, for the nodes modifier).  With the Blender
modifiers.move(from, to) semantics (remove, then insert at the target index),
the index that lands immediately after the reference is reference_index + 1
when the moved modifier currently sits above the reference and
reference_index when it sits below it; symmetrically for BEFORE. -/
def getModifierIndex (currentIndex referenceIndex : ℕ) (position : Position) : ℕ :=
  match position with
  | Position.AFTER =>
      if currentIndex < referenceIndex then referenceIndex else referenceIndex + 1
  | Position.BEFORE =>
      if currentIndex < referenceIndex then referenceIndex - 1 else referenceIndex

/-- List insertion at an index (appends when the index exceeds the length). -/
def insertAt (l : List Mod) (i : ℕ) (a : Mod) : List Mod := l.take i ++ a :: l.drop i

/-- List removal at an index. -/
def removeAt (l : List Mod) (i : ℕ) : List Mod := l.take i ++ l.drop (i + 1)

/-- Blender ob.modifiers.move(from_index, to_index). -/
def moveMod (l : List Mod) (i j : ℕ) : List Mod :=
  match l.get? i with
  | none => l
  | some m => insertAt (removeAt l i) j m

/-- Index of the named modifier in a stack (ob.modifiers.find for a present
modifier). -/
def findModIdx (mods : List Mod) (n : String) : ℕ :=
  mods.findIdx (fun m => decide (m.name = n))

/-- Shallow embedding of sort_array_mod: place the array modifier after the
last other array modifier, else after the last screw modifier, else after the
last mirror modifier without a mirror object, else at the top of the stack.
Python compares modifier objects by identity; modifier names are unique
within a stack, so the target is identified by its name here. -/
def sortArrayMod (mods : List Mod) (targetName : String) : List Mod :=
  let idx := findModIdx mods targetName
  let others := mods.filter (fun m => decide (m.name ≠ targetName))
  match others.reverse.find? (fun m => decide (m.type = ModType.ARRAY)) with
  | some a =>
      moveMod mods idx (getModifierIndex idx (findModIdx mods a.name) Position.AFTER)
  | none =>
      match others.reverse.find? (fun m => decide (m.type = ModType.SCREW)) with
      | some s0 =>
          moveMod mods idx (getModifierIndex idx (findModIdx mods s0.name) Position.AFTER)
      | none =>
          match others.reverse.find?
              (fun m => decide (m.type = ModType.MIRROR ∧ m.mirrorObjectIsNone = true)) with
          | some mi =>
              moveMod mods idx (getModifierIndex idx (findModIdx mods mi.name) Position.AFTER)
          | none => moveMod mods idx 0

/-! ## Real vectors, 3x3 matrices and affine transforms

Blender matrix_world values are 4x4 matrices whose bottom row is (0,0,0,1);
they are modelled as a linear 3x3 part plus a translation column.  mathutils
uses column vectors: matrix @ vector applies the transform, the axis vectors
of a transform are its columns, and vector @ matrix multiplies with the
vector on the left (transposed application, no translation). -/

noncomputable section

attribute [local instance] Classical.propDecidable

/-- Real 3-vector. -/
structure V3 where
  x : ℝ
  y : ℝ
  z : ℝ

namespace V3

@[ext]
theorem extV {a b : V3} (hx : a.x = b.x) (hy : a.y = b.y) (hz : a.z = b.z) : a = b := by
  cases a; cases b; simp_all

/-- Zero vector. -/
def zero : V3 := ⟨0, 0, 0⟩

/-- Componentwise sum. -/
def add (a b : V3) : V3 := ⟨a.x + b.x, a.y + b.y, a.z + b.z⟩

/-- Componentwise difference. -/
def sub (a b : V3) : V3 := ⟨a.x - b.x, a.y - b.y, a.z - b.z⟩

/-- Componentwise negation. -/
def neg (a : V3) : V3 := ⟨-a.x, -a.y, -a.z⟩

/-- Scalar multiple. -/
def smul (a : V3) (r : ℝ) : V3 := ⟨a.x * r, a.y * r, a.z * r⟩

/-- Dot product. -/
def dot (a b : V3) : ℝ := a.x * b.x + a.y * b.y + a.z * b.z

/-- Squared length (mathutils length_squared). -/
def lengthSq (a : V3) : ℝ := dot a a

/-- Length (mathutils length). -/
def length (a : V3) : ℝ := Real.sqrt (lengthSq a)

/-- mathutils normalized(): the vector divided by its length; the zero vector
normalises to the zero vector. -/
def normalized (a : V3) : V3 := a.smul (1 / a.length)

/-- mathutils project: the projection of a onto u, ((a . u) / (u . u)) u. -/
def project (a u : V3) : V3 := u.smul (dot a u / dot u u)

end V3

/-- Real 3x3 matrix, row-major fields. -/
structure M3 where
  m00 : ℝ
  m01 : ℝ
  m02 : ℝ
  m10 : ℝ
  m11 : ℝ
  m12 : ℝ
  m20 : ℝ
  m21 : ℝ
  m22 : ℝ

namespace M3

@[ext]
theorem extM {a b : M3}
    (h00 : a.m00 = b.m00) (h01 : a.m01 = b.m01) (h02 : a.m02 = b.m02)
    (h10 : a.m10 = b.m10) (h11 : a.m11 = b.m11) (h12 : a.m12 = b.m12)
    (h20 : a.m20 = b.m20) (h21 : a.m21 = b.m21) (h22 : a.m22 = b.m22) : a = b := by
  cases a; cases b; simp_all

/-- Identity matrix. -/
def id : M3 := ⟨1, 0, 0, 0, 1, 0, 0, 0, 1⟩

/-- Matrix product. -/
def mul (a b : M3) : M3 :=
  ⟨a.m00 * b.m00 + a.m01 * b.m10 + a.m02 * b.m20,
   a.m00 * b.m01 + a.m01 * b.m11 + a.m02 * b.m21,
   a.m00 * b.m02 + a.m01 * b.m12 + a.m02 * b.m22,
   a.m10 * b.m00 + a.m11 * b.m10 + a.m12 * b.m20,
   a.m10 * b.m01 + a.m11 * b.m11 + a.m12 * b.m21,
   a.m10 * b.m02 + a.m11 * b.m12 + a.m12 * b.m22,
   a.m20 * b.m00 + a.m21 * b.m10 + a.m22 * b.m20,
   a.m20 * b.m01 + a.m21 * b.m11 + a.m22 * b.m21,
   a.m20 * b.m02 + a.m21 * b.m12 + a.m22 * b.m22⟩

/-- Matrix applied to a column vector. -/
def mulVec (a : M3) (v : V3) : V3 :=
  ⟨a.m00 * v.x + a.m01 * v.y + a.m02 * v.z,
   a.m10 * v.x + a.m11 * v.y + a.m12 * v.z,
   a.m20 * v.x + a.m21 * v.y + a.m22 * v.z⟩

/-- Transpose. -/
def transpose (a : M3) : M3 :=
  ⟨a.m00, a.m10, a.m20, a.m01, a.m11, a.m21, a.m02, a.m12, a.m22⟩

/-- Diagonal matrix from a vector. -/
def diag (v : V3) : M3 := ⟨v.x, 0, 0, 0, v.y, 0, 0, 0, v.z⟩

/-- Determinant. -/
def det (a : M3) : ℝ :=
  a.m00 * (a.m11 * a.m22 - a.m12 * a.m21)
  - a.m01 * (a.m10 * a.m22 - a.m12 * a.m20)
  + a.m02 * (a.m10 * a.m21 - a.m11 * a.m20)

/-- Inverse via the adjugate (total: division by a zero determinant yields
zero entries, matching that the code never inverts a singular transform). -/
def inv (a : M3) : M3 :=
  let d := det a
  ⟨(a.m11 * a.m22 - a.m12 * a.m21) / d,
   (a.m02 * a.m21 - a.m01 * a.m22) / d,
   (a.m01 * a.m12 - a.m02 * a.m11) / d,
   (a.m12 * a.m20 - a.m10 * a.m22) / d,
   (a.m00 * a.m22 - a.m02 * a.m20) / d,
   (a.m02 * a.m10 - a.m00 * a.m12) / d,
   (a.m10 * a.m21 - a.m11 * a.m20) / d,
   (a.m01 * a.m20 - a.m00 * a.m21) / d,
   (a.m00 * a.m11 - a.m01 * a.m10) / d⟩

/-- Column j of the matrix (the basis vectors of a Blender transform). -/
def col0 (a : M3) : V3 := ⟨a.m00, a.m10, a.m20⟩

/-- Column 1. -/
def col1 (a : M3) : V3 := ⟨a.m01, a.m11, a.m21⟩

/-- Column 2. -/
def col2 (a : M3) : V3 := ⟨a.m02, a.m12, a.m22⟩

/-- Matrix with the given columns. -/
def ofCols (c0 c1 c2 : V3) : M3 := ⟨c0.x, c1.x, c2.x, c0.y, c1.y, c2.y, c0.z, c1.z, c2.z⟩

/-- mathutils Matrix.normalized() on a 3x3: each basis column normalised. -/
def normalizedCols (a : M3) : M3 :=
  ofCols a.col0.normalized a.col1.normalized a.col2.normalized

end M3

/-- Affine transform: a Blender 4x4 matrix with bottom row (0,0,0,1). -/
structure Aff where
  lin : M3
  tra : V3

namespace Aff

@[ext]
theorem extA {a b : Aff} (hl : a.lin = b.lin) (ht : a.tra = b.tra) : a = b := by
  cases a; cases b; simp_all

/-- Identity transform. -/
def id : Aff := ⟨M3.id, V3.zero⟩

/-- Composition (the Python matrix product on 4x4 transforms). -/
def mul (a b : Aff) : Aff := ⟨a.lin.mul b.lin, (a.lin.mulVec b.tra).add a.tra⟩

/-- Transform applied to a point (matrix @ vector). -/
def apply (a : Aff) (v : V3) : V3 := (a.lin.mulVec v).add a.tra

/-- mathutils Matrix.Translation. -/
def translation (v : V3) : Aff := ⟨M3.id, v⟩

/-- mathutils Matrix.Diagonal(v.to_4d()).to_4x4 style diagonal transform
(the appended fourth diagonal entry is 1). -/
def diagonal4 (v : V3) : Aff := ⟨M3.diag v, V3.zero⟩

/-- mathutils inverted(): inverse transform. -/
def inverse (a : Aff) : Aff := ⟨a.lin.inv, (a.lin.inv.mulVec a.tra).neg⟩

/-- mathutils to_translation(). -/
def toTranslation (a : Aff) : V3 := a.tra

/-- Assignment to the matrix translation column. -/
def setTranslation (a : Aff) (v : V3) : Aff := ⟨a.lin, v⟩

/-- mathutils to_scale(): the lengths of the three basis columns. -/
def toScale (a : Aff) : V3 := ⟨a.lin.col0.length, a.lin.col1.length, a.lin.col2.length⟩

/-- mathutils Matrix.Rotation(angle, 4, axis): Rodrigues rotation about the
normalised axis. -/
def rotation (t : ℝ) (axis : V3) : Aff :=
  let n := axis.normalized
  let c := Real.cos t
  let s := Real.sin t
  ⟨⟨c + n.x * n.x * (1 - c), n.x * n.y * (1 - c) - n.z * s, n.x * n.z * (1 - c) + n.y * s,
    n.y * n.x * (1 - c) + n.z * s, c + n.y * n.y * (1 - c), n.y * n.z * (1 - c) - n.x * s,
    n.z * n.x * (1 - c) - n.y * s, n.z * n.y * (1 - c) + n.x * s, c + n.z * n.z * (1 - c)⟩,
   V3.zero⟩

/-- get_axis_vec from utils/math.py: the requested basis column of a transform. -/
def getAxisVec (ax : Axis) (a : Aff) : V3 :=
  match ax with
  | Axis.X => a.lin.col0
  | Axis.Y => a.lin.col1
  | Axis.Z => a.lin.col2

end Aff

/-- mathutils vector @ matrix: row-vector multiplication (the linear part
transposed applied to the vector; the translation does not contribute). -/
def V3.rowMul (v : V3) (a : Aff) : V3 := a.lin.transpose.mulVec v

/-! ## Duplicates construct state and refresh

Source: radial_duplicates_object.py.  Scene objects carry an identifier; the
sibling duplicates created by starting_ob.copy() receive fresh identifiers
from an allocation counter.  The RANDOM duplicates-rotation mode draws
random.randrange(0, 360) once per sibling per refresh; the pseudo-random
source is modelled as a stream of naturals together with a cursor, each draw
reading the stream (reduced mod 360, the randrange bound) and advancing the
cursor. -/

/-- A duplicated sibling object: identifier, world transform, parent inverse
matrix and parent link. -/
structure DupObj where
  id : ℕ
  mx : Aff
  parentInv : Aff
  parent : Option ℕ

/-- Scene and construct state of a Duplicates construct. -/
structure DState where
  startingMx : Aff
  startingParent : Option ℕ
  startingParentInv : Aff
  centerId : ℕ
  centerMx : Aff
  orientMx : Aff
  props : DupProps
  duplis : List DupObj
  nextId : ℕ
  rng : ℕ → ℕ
  rngIdx : ℕ

/-- spin_vec_object of RadialDuplicates: the requested axis column of
(center_empty.matrix_world @ spin_orientation_matrix_object), row-multiplied
by center_empty.matrix_world. -/
def spinVecObjectD (s : DState) : V3 :=
  (Aff.getAxisVec s.props.spin_axis (s.centerMx.mul s.orientMx)).rowMul s.centerMx

/-- RadialDuplicatesPivotPoint.co_world: the center empty translation. -/
def pivotCoD (s : DState) : V3 := s.centerMx.tra

/-- RadialDuplicatesStartingObject.refresh: parent the starting object to the
center empty keeping its world transform. -/
def startingRefreshD (s : DState) : DState :=
  { s with startingParent := some s.centerId, startingParentInv := s.centerMx.inverse }

/-- RadialDuplicatesDuplicatedObjects._set_count: delete every existing
sibling and create count - 1 fresh copies of the starting object (the
selection juggling at the head of the method only touches selection state).
A fresh copy starts with the transform and parent link of the starting
object. -/
def setCountD (s : DState) : DState :=
  { s with
    duplis := (List.range (s.props.count - 1)).map
      (fun k => ⟨s.nextId + k, s.startingMx, s.startingParentInv, s.startingParent⟩),
    nextId := s.nextId + (s.props.count - 1) }

/-- Transform of sibling number i (enumerate starts at 1) computed by
_set_transforms; a is the value drawn by random.randrange(0, 360) for this
sibling (only read in the RANDOM branch). -/
def dupTransform (s : DState) (svo svw : V3) (step : ℚ) (i : ℕ) (a : ℕ) (o : DupObj) :
    DupObj :=
  let mx1 := s.startingMx
  let mx2 := mx1.setTranslation
    (mx1.tra.add (svo.normalized.smul ((s.props.height_offset : ℝ) * (i : ℝ))))
  let rot := (Aff.translation (pivotCoD s)).mul
    ((Aff.rotation ((i : ℝ) * (step : ℝ)) svw).mul (Aff.translation (pivotCoD s).neg))
  let mx3 := rot.mul mx2
  let mx4 :=
    match s.props.duplicates_rotation with
    | RotMode.FOLLOW => mx3
    | RotMode.KEEP =>
        let r := Aff.mk s.startingMx.lin.normalizedCols V3.zero
        let t := Aff.translation mx3.tra
        let sc := Aff.diagonal4 mx3.toScale
        t.mul (r.mul sc)
    | RotMode.RANDOM =>
        let r := Aff.rotation (a : ℝ) svw
        let t := Aff.translation mx3.tra
        let sc := Aff.diagonal4 mx3.toScale
        t.mul (r.mul sc)
  let sc := linspace 1 s.props.end_scale s.props.count i
  let sca := (Aff.translation mx4.tra).mul
    ((Aff.diagonal4 ⟨(sc : ℝ), (sc : ℝ), (sc : ℝ)⟩).mul (Aff.translation mx4.tra.neg))
  { o with mx := sca.mul mx4 }

/-- The per-sibling loop of _set_transforms: i counts from 1, ridx is the
pseudo-random stream cursor (advanced only when the RANDOM branch draws). -/
def setTransformsGo (s : DState) (svo svw : V3) (step : ℚ) :
    ℕ → ℕ → List DupObj → List DupObj × ℕ
  | _, ridx, [] => ([], ridx)
  | i, ridx, o :: os =>
      let a := s.rng ridx % 360
      let o2 := dupTransform s svo svw step i a o
      let ridx2 := if s.props.duplicates_rotation = RotMode.RANDOM then ridx + 1 else ridx
      let rest := setTransformsGo s svo svw step (i + 1) ridx2 os
      (o2 :: rest.1, rest.2)

/-- RadialDuplicatesDuplicatedObjects._set_transforms: under the count > 1
guard, rotate, optionally re-orient, and scale every sibling. -/
def setTransformsD (s : DState) : DState :=
  if 1 < s.props.count then
    let svo := spinVecObjectD s
    let svw := svo.rowMul s.centerMx.inverse
    let step := stepAngleDup s.props
    let res := setTransformsGo s svo svw step 1 s.rngIdx s.duplis
    { s with duplis := res.1, rngIdx := res.2 }
  else s

/-- RadialDuplicatesDuplicatedObjects._set_parent: parent every sibling to the
center empty keeping its world transform. -/
def setParentD (s : DState) : DState :=
  { s with duplis :=
      (s.duplis.map (fun o => { o with parent := some s.centerId, parentInv := s.centerMx.inverse })) }

/-- RadialDuplicates.refresh: starting object refresh, then _set_count,
_set_transforms and _set_parent of the duplicated objects. -/
def refreshD (s : DState) : DState :=
  setParentD (setTransformsD (setCountD (startingRefreshD s)))

/-- World transforms of every helper and sibling object of a Duplicates
construct: the center empty, the starting object and the sibling duplicates. -/
def transformsD (s : DState) : List Aff :=
  s.centerMx :: s.startingMx :: s.duplis.map DupObj.mx

/-- RadialDuplicatesDuplicatedObjects.displace_offset_vec_object: the radius
displacement direction.  Unlike the Array and Screw versions there is no
near-zero fallback: the starting-object offset from the pivot is used as is. -/
def dupDisplaceOffsetVec (s : DState) : V3 :=
  if s.props.radius = 0 then V3.zero
  else
    let pivotMx := s.centerMx.setTranslation (pivotCoD s)
    let startingCoPivot := pivotMx.inverse.apply s.startingMx.tra
    let nonAligned := startingCoPivot
    let svo := spinVecObjectD s
    let projection := nonAligned.project svo
    let rejection := nonAligned.sub projection
    rejection.normalized.smul ((s.props.radius : ℝ))

/-! ## Array construct state and refresh

Source: radial_array_object.py.  RadialArray.refresh runs the nodes modifier
refresh (mesh objects only), the array modifier refresh and the offset empty
refresh; the first two write modifier fields, the third writes the offset
empty transform and re-parents its children keeping their world transforms. -/

/-- A child object of the offset empty: identifier, world transform and
parent inverse matrix.  The keep-transform re-parenting dance preserves the
world transform and recomputes the parent inverse from the new parent world
transform. -/
structure ChildObj where
  id : ℕ
  world : Aff
  parentInv : Aff

/-- Values written into the procedural-offset node group (node inputs of
StartRotation, RadiusOffset, ObjectPivotToRadialArrayCenter and
RestoreObjectPivot). -/
structure NodesVals where
  startRotation : V3
  radiusOffsetVec : V3
  pivotToCenter : V3
  restorePivot : V3

/-- Scene and construct state of an Array construct. -/
structure AState where
  obIsMesh : Bool
  obMx : Aff
  orientMx : Aff
  props : ArrayProps
  centerEmpty : Option Aff
  offsetParentIsOb : Bool
  offsetBasis : Aff
  offsetParentInv : Aff
  offsetWorld : Aff
  offsetChildren : List ChildObj
  dataCenterCoWorld : V3
  modCount : ℕ
  modOffsetVec : V3
  nodes : Option NodesVals

/-- spin_vec_object of RadialArray: the requested axis column of
(ob.matrix_world @ spin_orientation_matrix_object), row-multiplied by
ob.matrix_world. -/
def spinVecObjectA (s : AState) : V3 :=
  (Aff.getAxisVec s.props.spin_axis (s.obMx.mul s.orientMx)).rowMul s.obMx

/-- RadialArrayPivotPoint.co_world: the center empty translation when a
center empty exists, else the object origin. -/
def pivotCoA (s : AState) : V3 := ((s.centerEmpty.map Aff.toTranslation).getD s.obMx.tra)

/-- RadialArrayArrayMod.refresh: write count and the constant height offset
vector into the array modifier. -/
def arrayModRefresh (s : AState) : AState :=
  { s with
    modCount := s.props.count,
    modOffsetVec := (spinVecObjectA s).normalized.smul ((s.props.height_offset : ℝ)) }

/-- RadialArrayNodesMod.displace_offset_vec_object: zero when the radius
offset is zero; otherwise the geometry center expressed in pivot space, or
the all-axes vector (1,1,1) when that coordinate has squared length below
0.001, projected out of the spin axis, normalised and scaled by the radius
offset. -/
def arrayDisplaceOffsetVec (s : AState) : V3 :=
  if s.props.radius_offset = 0 then V3.zero
  else
    let pivotMx := s.obMx.setTranslation (pivotCoA s)
    let dataCenterCoPivot := pivotMx.inverse.apply s.dataCenterCoWorld
    let nonAligned :=
      if dataCenterCoPivot.lengthSq < 1/1000 then (⟨1, 1, 1⟩ : V3) else dataCenterCoPivot
    let svo := spinVecObjectA s
    let projection := nonAligned.project svo
    let rejection := nonAligned.sub projection
    rejection.normalized.smul ((s.props.radius_offset : ℝ))

/-- atan2 on the reals (mathutils Euler extraction helper). -/
def arctan2 (y x : ℝ) : ℝ :=
  if 0 < x then Real.arctan (y / x)
  else if x < 0 then
    (if 0 ≤ y then Real.arctan (y / x) + Real.pi else Real.arctan (y / x) - Real.pi)
  else if 0 < y then Real.pi / 2
  else if y < 0 then -(Real.pi / 2)
  else 0

/-- mathutils to_euler() in the default XYZ order, extracted from a rotation
matrix. -/
def toEulerXYZ (m : M3) : V3 :=
  ⟨arctan2 m.m21 m.m22, Real.arcsin (-(m.m20)), arctan2 m.m10 m.m00⟩

/-- RadialArrayNodesMod._get_start_rotation_matrix: Euler (0,0,0) when the
start angle is zero, else the Euler angles of the start rotation about the
object-space spin vector. -/
def startRotationEulerA (s : AState) : V3 :=
  if s.props.start_angle = 0 then V3.zero
  else toEulerXYZ (Aff.rotation ((s.props.start_angle : ℝ)) (spinVecObjectA s)).lin

/-- RadialArrayNodesMod.refresh: when the start rotation or the displacement
is nonzero, ensure the nodes modifier exists and write its node inputs (the
pivot translations come from the center empty matrix in object space, or are
zero without a center empty); otherwise remove the nodes modifier. -/
def nodesModRefreshA (s : AState) : AState :=
  let sr := startRotationEulerA s
  let dv := arrayDisplaceOffsetVec s
  if sr ≠ V3.zero ∨ dv ≠ V3.zero then
    match s.centerEmpty with
    | some ce =>
        let ceOb := s.obMx.inverse.mul ce
        { s with nodes := some ⟨sr, dv, ceOb.inverse.tra, ceOb.tra⟩ }
    | none => { s with nodes := some ⟨sr, dv, V3.zero, V3.zero⟩ }
  else { s with nodes := none }

/-- RadialArrayOffsetEmpty.refresh: under the count > 1 guard, rotate the
offset empty about the pivot point by the spin angle.  When the empty is
parented to the object the stored basis is rebuilt in object space; otherwise
the world matrix is aligned with the object and rotated in world space.  The
children of the empty keep their world transforms and get a fresh parent
inverse from the new empty world transform. -/
def offsetEmptyRefreshA (s : AState) : AState :=
  if 1 < s.props.count then
    let svo := spinVecObjectA s
    let svw := svo.rowMul s.obMx.inverse
    let spin := spinAngleArray s.props
    if s.offsetParentIsOb then
      let pObj := s.obMx.inverse.apply (pivotCoA s)
      let tra := Aff.translation V3.zero
      let rot := (Aff.translation pObj).mul
        ((Aff.rotation ((spin : ℝ)) svo).mul (Aff.translation pObj.neg))
      let sca := Aff.diagonal4 (Aff.toScale Aff.id)
      let basis := tra.mul (rot.mul sca)
      let world := s.obMx.mul (Aff.id.mul basis)
      { s with
        offsetParentInv := Aff.id,
        offsetBasis := basis,
        offsetWorld := world,
        offsetChildren := (s.offsetChildren.map (fun c => { c with parentInv := world.inverse })) }
    else
      let rot := (Aff.translation (pivotCoA s)).mul
        ((Aff.rotation ((spin : ℝ)) svw).mul (Aff.translation (pivotCoA s).neg))
      let world := rot.mul s.obMx
      { s with
        offsetWorld := world,
        offsetChildren := (s.offsetChildren.map (fun c => { c with parentInv := world.inverse })) }
  else s

/-- RadialArray.refresh: nodes modifier refresh for mesh objects, then array
modifier refresh, then offset empty refresh. -/
def refreshA (s : AState) : AState :=
  let s1 := if s.obIsMesh then nodesModRefreshA s else s
  let s2 := arrayModRefresh s1
  offsetEmptyRefreshA s2

/-! ## Screw construct state and refresh

Source: radial_screw_object.py.  RadialScrew.refresh runs the nodes modifier
refresh (mesh objects only), the screw modifier refresh and the axis empty
refresh. -/

/-- Fields of the screw modifier written by RadialScrewScrewMod.refresh. -/
structure ScrewModVals where
  steps : ℕ
  iterations : ℕ
  axis : Axis
  screwOffset : ℚ
  angle : ℚ
  objectIsAxisEmpty : Bool

/-- Scene and construct state of a Screw construct. -/
structure SState where
  obIsMesh : Bool
  obMx : Aff
  orientMx : Aff
  props : ScrewProps
  axisEmptyWorld : Aff
  axisChildren : List ChildObj
  meshCenterCoWorld : V3
  modVals : ScrewModVals
  nodes : Option NodesVals

/-- spin_vec_object of RadialScrew. -/
def spinVecObjectS (s : SState) : V3 :=
  (Aff.getAxisVec s.props.spin_axis (s.obMx.mul s.orientMx)).rowMul s.obMx

/-- RadialScrewPivotPoint.co_world: the axis empty translation. -/
def pivotCoS (s : SState) : V3 := s.axisEmptyWorld.tra

/-- RadialScrewScrewMod.refresh: write steps, iterations, axis, screw offset,
the angle end_angle - start_angle, and the axis object into the modifier. -/
def screwModRefresh (s : SState) : SState :=
  { s with modVals :=
      ⟨s.props.steps, s.props.iterations, s.props.spin_axis, s.props.screw_offset,
       s.props.end_angle - s.props.start_angle, true⟩ }

/-- RadialScrewNodesMod.displace_offset_vec_object: as the Array version with
the mesh center in place of the data center; the same (1,1,1) near-zero
fallback. -/
def screwDisplaceOffsetVec (s : SState) : V3 :=
  if s.props.radius_offset = 0 then V3.zero
  else
    let pivotMx := s.obMx.setTranslation (pivotCoS s)
    let meshCenterCoPivot := pivotMx.inverse.apply s.meshCenterCoWorld
    let nonAligned :=
      if meshCenterCoPivot.lengthSq < 1/1000 then (⟨1, 1, 1⟩ : V3) else meshCenterCoPivot
    let svo := spinVecObjectS s
    let projection := nonAligned.project svo
    let rejection := nonAligned.sub projection
    rejection.normalized.smul ((s.props.radius_offset : ℝ))

/-- RadialScrewNodesMod._get_start_rotation_matrix. -/
def startRotationEulerS (s : SState) : V3 :=
  if s.props.start_angle = 0 then V3.zero
  else toEulerXYZ (Aff.rotation ((s.props.start_angle : ℝ)) (spinVecObjectS s)).lin

/-- RadialScrewNodesMod.refresh: ensure and fill, or remove, the nodes
modifier; the pivot translations always come from the axis empty matrix in
object space. -/
def nodesModRefreshS (s : SState) : SState :=
  let sr := startRotationEulerS s
  let dv := screwDisplaceOffsetVec s
  if sr ≠ V3.zero ∨ dv ≠ V3.zero then
    let aeOb := s.obMx.inverse.mul s.axisEmptyWorld
    { s with nodes := some ⟨sr, dv, aeOb.inverse.tra, aeOb.tra⟩ }
  else { s with nodes := none }

/-- RadialScrewAxisEmpty.refresh: set the axis empty world matrix to the spin
orientation matrix with the pivot point as translation; children keep their
world transforms and get a fresh parent inverse. -/
def axisEmptyRefreshS (s : SState) : SState :=
  let world := (s.obMx.mul s.orientMx).setTranslation (pivotCoS s)
  { s with
    axisEmptyWorld := world,
    axisChildren := (s.axisChildren.map (fun c => { c with parentInv := world.inverse })) }

/-- RadialScrew.refresh. -/
def refreshS (s : SState) : SState :=
  let s1 := if s.obIsMesh then nodesModRefreshS s else s
  let s2 := screwModRefresh s1
  axisEmptyRefreshS s2

/-- World transforms of every helper object touched by an Array refresh: the
offset empty (basis, parent inverse and world matrix), the center empty, the
object itself, and the world matrices of the children of the offset empty. -/
def transformsA (s : AState) : List Aff :=
  s.offsetBasis :: s.offsetParentInv :: s.offsetWorld :: (s.centerEmpty.getD Aff.id) ::
    s.obMx :: s.offsetChildren.map ChildObj.world

/-- World transforms of every helper object touched by a Screw refresh: the
axis empty, the object itself, and the world matrices of the children of the
axis empty. -/
def transformsS (s : SState) : List Aff :=
  s.axisEmptyWorld :: s.obMx :: s.axisChildren.map ChildObj.world

end

/-! ## Modal session cancellation for Array constructs (C3)

Source: radial_array_modal.py lines 676-680 (the ESC / RIGHTMOUSE branch) and
lines 766-806 (restore_all_radial_arrays, restore_ob_origin,
remove_new_radial_arrays, restore_radial_array_attributes,
restore_radial_array_pivot_points_or_refresh), together with
RadialArrayPivotPoint.set / RadialArray.remove /
ObjectRadialArrays.remove_center_empty_of_top_radial_array from
radial_array_object.py.

The state needed by these operations is, per construct: the property record
(numeric parameters, enums and the cached orientation matrix, stored by
Blender as sixteen floats) and the optional center empty world coordinate;
per object: the origin coordinate and the ordered construct list (the last
list entry is the top construct).  A refresh only rewrites modifier fields
and the offset empty transform, none of which appear in this state, so
refresh acts as the identity here.  Dictionary entries of the session
(initial attributes, snapshot coordinates) are modelled as total maps: the
modal stores an entry for every construct before it can be restored. -/

/-- Scene record of one Array construct as seen by the modal session. -/
structure ACRecord where
  name : String
  spin_orientation : Orientation
  orientMx : List ℚ
  props : ArrayProps
  centerEmptyCo : Option V3Q
deriving DecidableEq

/-- Scene state of the edited object: its origin and its construct list
(top construct last). -/
structure AScene where
  originCo : V3Q
  arrays : List ACRecord
deriving DecidableEq

/-- Initial-attributes snapshot of one construct, stored by
store_existing_radial_array_attrs at session start. -/
structure ASnapshot where
  spin_orientation : Orientation
  orientMx : List ℚ
  props : ArrayProps
  pivotSym : PivotSym
  pivotCo : V3Q
deriving DecidableEq

/-- Modal session state relevant to cancellation. -/
structure ASession where
  initialOrigin : V3Q
  snap : String → ASnapshot
  lastSet : List String
  newNames : List String
  modified : List String

/-- Map a function over every element except the last one. -/
def mapExceptLast (f : ACRecord → ACRecord) : List ACRecord → List ACRecord
  | [] => []
  | [a] => [a]
  | a :: b :: rest => f a :: mapExceptLast f (b :: rest)

/-- Map a function over the last element only. -/
def mapLast (f : ACRecord → ACRecord) : List ACRecord → List ACRecord
  | [] => []
  | [a] => [f a]
  | a :: b :: rest => a :: mapLast f (b :: rest)

/-- RadialArrayCenterEmpty.ensure: create the center empty if it is missing.
A fresh center empty is parented to the object with identity basis, so its
world coordinate is the current object origin. -/
def fillEmpty (origin : V3Q) (a : ACRecord) : ACRecord :=
  if a.centerEmptyCo = none then { a with centerEmptyCo := some origin } else a

/-- RadialArrayPivotPoint.set with a literal world coordinate for construct n
(the cancellation path always passes a coordinate, never the ORIGIN symbol):
for the top construct, remove its center empty, ensure center empties of the
child constructs (pinning their pivots at the current origin), move the
object origin to the coordinate and refresh all (identity here); for a child
construct, ensure its center empty and move it to the coordinate. -/
def setPivotVecQ (sc : AScene) (n : String) (co : V3Q) : AScene :=
  match sc.arrays.getLast? with
  | none => { sc with originCo := co }
  | some top =>
      if top.name = n then
        { originCo := co,
          arrays := mapLast (fun a => { a with centerEmptyCo := none })
            (mapExceptLast (fillEmpty sc.originCo) sc.arrays) }
      else
        { sc with arrays :=
            (sc.arrays.map (fun a => if a.name = n then { a with centerEmptyCo := some co } else a)) }

/-- RadialArray.remove for construct n followed by
remove_center_empty_of_top_radial_array: the construct (with its modifier,
empties and property record) disappears from the list; if the remaining top
construct has a center empty, that empty is removed, child center empties are
ensured at the current origin, and the object origin moves to the removed
empty coordinate. -/
def removeArrayQ (sc : AScene) (n : String) : AScene :=
  let arrs := sc.arrays.filter (fun a => decide (a.name ≠ n))
  match arrs.getLast? with
  | none => { sc with arrays := [] }
  | some top =>
      match top.centerEmptyCo with
      | some c =>
          { originCo := c,
            arrays := mapLast (fun a => { a with centerEmptyCo := none })
              (mapExceptLast (fillEmpty sc.originCo) arrs) }
      | none => { sc with arrays := arrs }

/-- restore_radial_array_attributes: for every modified construct that is not
new, write the snapshot numeric parameters, enums and cached orientation
matrix back into the property record. -/
def restoreAttrsQ (sess : ASession) (sc : AScene) : AScene :=
  { sc with arrays :=
      (sc.arrays.map (fun a =>
        if a.name ∈ sess.modified ∧ a.name ∉ sess.newNames then
          { a with
            spin_orientation := (sess.snap a.name).spin_orientation,
            orientMx := (sess.snap a.name).orientMx,
            props := (sess.snap a.name).props }
        else a)) }

/-- restore_radial_array_pivot_points_or_refresh: for every modified
construct whose name appears in the last-set-pivot-points map, restore the
snapshot pivot coordinate through set_pivot_point; otherwise only refresh
(identity on this state). -/
def restorePivotsQ (sess : ASession) (sc : AScene) : AScene :=
  sess.modified.foldl
    (fun acc n => if n ∈ sess.lastSet then setPivotVecQ acc n (sess.snap n).pivotCo else acc) sc

/-- remove_new_radial_arrays: remove the constructs created during the
session, in creation order. -/
def removeNewQ (sess : ASession) (sc : AScene) : AScene :=
  sess.newNames.foldl removeArrayQ sc

/-- restore_ob_origin: restore the object origin when no constructs remain. -/
def restoreObOriginQ (sess : ASession) (sc : AScene) : AScene :=
  if sc.arrays = [] then { sc with originCo := sess.initialOrigin } else sc

/-- The full cancellation path of the modal operator (ESC / RIGHTMOUSE):
restore_all_radial_arrays followed by restore_ob_origin. -/
def cancelModal (sess : ASession) (sc : AScene) : AScene :=
  restoreObOriginQ sess (removeNewQ sess (restorePivotsQ sess (restoreAttrsQ sess sc)))

/-- Lookup of a construct by name. -/
def findArr (sc : AScene) (n : String) : Option ACRecord :=
  sc.arrays.find? (fun a => decide (a.name = n))

/-- Pivot coordinate of a construct: its center empty coordinate if present,
else the object origin (RadialArrayPivotPoint.co_world). -/
def pivotCoOfQ (sc : AScene) (n : String) : Option V3Q :=
  (findArr sc n).map (fun a => a.centerEmptyCo.getD sc.originCo)

/-- The attribute part of a construct record that
restore_radial_array_attributes writes back: the spin orientation enum, the
cached orientation matrix floats and the property record. -/
def attrsOf (a : ACRecord) : Orientation × List ℚ × ArrayProps :=
  (a.spin_orientation, a.orientMx, a.props)

/-- The attributes of the construct named n, when one exists. -/
def attrsObs (sc : AScene) (n : String) : Option (Orientation × List ℚ × ArrayProps) :=
  (findArr sc n).map attrsOf

/-- The construct names of the scene in stack order. -/
def namesOf (sc : AScene) : List String := sc.arrays.map ACRecord.name

/-! ## Concrete scene states used by witnesses and counterexamples -/

noncomputable section

/-- Duplicates construct in RANDOM mode: identity transforms, pivot at the
origin, spin axis Z, count 2, end angle 0, end scale 1, no height offset,
pseudo-random stream 0, 1, 2, ... -/
def dstateRandomEx : DState :=
  ⟨Aff.id, none, Aff.id, 99, Aff.id, Aff.id,
   ⟨Axis.Z, RotMode.RANDOM, 2, 0, 1, 0, 0⟩, [], 0, fun n => n, 0⟩

/-- Duplicates construct in FOLLOW mode. -/
def dstateFollowEx : DState :=
  ⟨Aff.id, none, Aff.id, 99, Aff.id, Aff.id,
   ⟨Axis.Z, RotMode.FOLLOW, 3, 2, 1, 0, 0⟩, [], 0, fun n => n, 0⟩

/-- Duplicates construct with two stale siblings (identifiers 5 and 6) and a
requested count of 3. -/
def dstateC6Ex : DState :=
  ⟨Aff.id, none, Aff.id, 99, Aff.id, Aff.id,
   ⟨Axis.Z, RotMode.FOLLOW, 3, 0, 1, 0, 0⟩,
   [⟨5, Aff.id, Aff.id, some 99⟩, ⟨6, Aff.id, Aff.id, some 99⟩], 7, fun n => n, 0⟩

/-- Duplicates construct with count 1. -/
def dstateCount1Ex : DState :=
  ⟨Aff.id, none, Aff.id, 99, Aff.id, Aff.id,
   ⟨Axis.Z, RotMode.FOLLOW, 1, 0, 1, 0, 0⟩,
   [⟨5, Aff.id, Aff.id, some 99⟩], 6, fun n => n, 0⟩

/-- Duplicates construct whose starting object sits exactly on the pivot and
whose radius is 1: the displacement helper has a zero-length rejection. -/
def dstateC8Ex : DState :=
  ⟨Aff.id, none, Aff.id, 99, Aff.id, Aff.id,
   ⟨Axis.Z, RotMode.FOLLOW, 6, 0, 1, 0, 1⟩, [], 0, fun n => n, 0⟩

/-- Array construct on a mesh object: identity transforms, full-circle span,
count 6. -/
def astateEx : AState :=
  ⟨true, Aff.id, Aff.id, ⟨Axis.Z, 6, 0, 0, radians360, 0⟩, none, true,
   Aff.id, Aff.id, Aff.id, [], ⟨1, 0, 0⟩, 0, V3.zero, none⟩

/-- Array construct with count 1. -/
def astateCount1Ex : AState :=
  ⟨true, Aff.id, Aff.id, ⟨Axis.Z, 1, 0, 0, radians360, 0⟩, none, true,
   Aff.id, Aff.id, Aff.id, [], ⟨1, 0, 0⟩, 0, V3.zero, none⟩

/-- Array construct whose geometry center lies exactly on the spin axis
through the pivot, with radius offset 1 and spin axis Z. -/
def astateC8Ex : AState :=
  ⟨true, Aff.id, Aff.id, ⟨Axis.Z, 6, 1, 0, radians360, 0⟩, none, true,
   Aff.id, Aff.id, Aff.id, [], V3.zero, 0, V3.zero, none⟩

/-- Screw construct on a mesh object. -/
def sstateEx : SState :=
  ⟨true, Aff.id, Aff.id, ⟨Axis.Z, 16, 0, 0, radians360, 0, 1⟩, Aff.id, [],
   ⟨1, 0, 0⟩, ⟨16, 1, Axis.Z, 0, 0, true⟩, none⟩

/-- Screw construct whose mesh center lies exactly on the spin axis through
the pivot, with radius offset 1 and spin axis Z. -/
def sstateC8Ex : SState :=
  ⟨true, Aff.id, Aff.id, ⟨Axis.Z, 16, 1, 0, radians360, 0, 1⟩, Aff.id, [],
   V3.zero, ⟨16, 1, Axis.Z, 0, 0, true⟩, none⟩

/-- Array construct whose data center lies on the Z spin axis but away from
the pivot: pivot-space coordinate (0, 0, 5), radius offset 1. -/
def astateC8AxisEx : AState :=
  ⟨true, Aff.id, Aff.id, ⟨Axis.Z, 6, 1, 0, radians360, 0⟩, none, true,
   Aff.id, Aff.id, Aff.id, [], ⟨0, 0, 5⟩, 0, V3.zero, none⟩

/-- Screw construct whose mesh center lies on the Z spin axis but away from
the pivot: pivot-space coordinate (0, 0, 5), radius offset 1. -/
def sstateC8AxisEx : SState :=
  ⟨true, Aff.id, Aff.id, ⟨Axis.Z, 16, 1, 0, radians360, 0, 1⟩, Aff.id, [],
   ⟨0, 0, 5⟩, ⟨16, 1, Axis.Z, 0, 0, true⟩, none⟩

end

/-- Snapshot used by the cancellation witness. -/
def c3Snap : String → ASnapshot := fun n =>
  if n = "A" then ⟨Orientation.LOCAL, [1, 0], ⟨Axis.Z, 6, 0, 0, 1, 0⟩, PivotSym.ORIGIN, ⟨1, 2, 3⟩⟩
  else ⟨Orientation.LOCAL, [1, 0], ⟨Axis.Z, 6, 0, 0, 1, 0⟩, PivotSym.CURSOR, ⟨4, 4, 4⟩⟩

/-- Scene used by the cancellation witness: a pre-existing construct A (edited
during the session) below a construct B created by the session. -/
def c3SceneEx : AScene :=
  ⟨⟨5, 5, 5⟩,
   [⟨"A", Orientation.GLOBAL, [2, 0], ⟨Axis.X, 9, 1, 1, 2, 1⟩, some ⟨7, 7, 7⟩⟩,
    ⟨"B", Orientation.LOCAL, [1, 0], ⟨Axis.Z, 6, 0, 0, 1, 0⟩, none⟩]⟩

/-- Session used by the cancellation witness. -/
def c3SessionEx : ASession :=
  ⟨⟨0, 0, 0⟩, c3Snap, ["A", "B"], ["B"], ["A", "B"]⟩

/-! ## C1: angular step computation -/

/-- C1: for every Array or Duplicates construct with count at least 2, the
per-step rotation increment used when refreshing placements equals
(end_angle - start_angle) / count when the span is a full circle (end angle
rounds to exactly 360 degrees, start angle is 0 for Array, height offset 0)
and (end_angle - start_angle) / (count - 1) otherwise; a Duplicates construct
has no start angle, its start angle is identically 0. -/
theorem C1_angular_step (p : ArrayProps) (q : DupProps)
    (hp : 2 ≤ p.count) (hq : 2 ≤ q.count) :
    (fullCircleArray p = true →
      spinAngleArray p = (p.end_angle - p.start_angle) / (p.count : ℚ)) ∧
    (fullCircleArray p = false →
      spinAngleArray p = (p.end_angle - p.start_angle) / ((p.count : ℚ) - 1)) ∧
    (fullCircleDup q = true → stepAngleDup q = (q.end_angle - 0) / (q.count : ℚ)) ∧
    (fullCircleDup q = false → stepAngleDup q = (q.end_angle - 0) / ((q.count : ℚ) - 1)) := by
  refine ⟨?_, ?_, ?_, ?_⟩
  · intro h
    have hs : p.start_angle = 0 := by
      have h2 := h
      simp only [fullCircleArray, Bool.and_eq_true, beq_iff_eq] at h2
      exact h2.1.2
    simp [spinAngleArray, h, hs]
  · intro h
    simp [spinAngleArray, h, div_sub_div_same]
  · intro h
    simp [stepAngleDup, h]
  · intro h
    simp [stepAngleDup, h]

/-- Helper: Python round(270.0, 5) is 270. -/
theorem round5_270 : round5 270 = 270 := by
  norm_num [round5, pyRound]

/-- Helper: Python round(radians(360), 5) is 6.28319. -/
theorem round5_radians360 : round5 radians360 = 628319 / 100000 := by
  norm_num [round5, pyRound, radians360]

/-- Helper: a 0..270 degree arc is not a full circle. -/
theorem fullCircleArray_open : fullCircleArray ⟨Axis.Z, 4, 0, 0, 270, 0⟩ = false := by
  simp [fullCircleArray, round5_270, round5_radians360]
  norm_num

/-- Helper: an untouched 0..radians(360) span with zero height offset is a
full circle. -/
theorem fullCircleArray_full : fullCircleArray ⟨Axis.Z, 6, 0, 0, radians360, 0⟩ = true := by
  simp [fullCircleArray]

/-- C1 witness: an open arc with start 0, end 270, count 4 steps by 90, and a
full circle with count 6 steps by radians360 / 6. -/
theorem C1_angular_step_witness :
    2 ≤ (ArrayProps.mk Axis.Z 4 0 0 270 0).count ∧
    spinAngleArray ⟨Axis.Z, 4, 0, 0, 270, 0⟩ = 90 ∧
    spinAngleArray ⟨Axis.Z, 6, 0, 0, radians360, 0⟩ = radians360 / 6 := by
  refine ⟨by decide, ?_, ?_⟩
  · have h := (C1_angular_step ⟨Axis.Z, 4, 0, 0, 270, 0⟩
      ⟨Axis.Z, RotMode.FOLLOW, 4, 270, 1, 0, 0⟩ (by decide) (by decide)).2.1
      fullCircleArray_open
    rw [h]; norm_num
  · have h := (C1_angular_step ⟨Axis.Z, 6, 0, 0, radians360, 0⟩
      ⟨Axis.Z, RotMode.FOLLOW, 6, 270, 1, 0, 0⟩ (by decide) (by decide)).1
      fullCircleArray_full
    rw [h]; norm_num

/-! ## C7: typed count entry -/

/-- C7 counterexample: with the count at its default 6, typing the digits 1
then 2 and pressing backspace twice yields the successive counts
6, 1, 12, 1, 1 - the second backspace (the one that empties the buffer) sets
the count to 1, not back to the pre-typing value 6 that the claim states. -/
theorem C7_count_entry_counterexample :
    countEntryTrace ⟨6, 0, none⟩
      [CountKey.digit 1, CountKey.digit 2, CountKey.backspace, CountKey.backspace] =
      [6, 1, 12, 1, 1] ∧
    ([6, 1, 12, 1, 1] : List ℕ) ≠ [6, 1, 12, 1, 6] := by decide

/-- C7 amended: the digit sequence d1 (nonzero), d2 followed by three
backspaces yields the counts c, d1, 10 d1 + d2, d1, 1, c: emptying the buffer
with backspace sets the count to 1, and only a further backspace on the
already-empty buffer reverts the count to its pre-typing value. -/
theorem C7_count_entry (c b d1 d2 : ℕ) (h1 : d1 ≠ 0) :
    countEntryTrace ⟨c, b, none⟩
      [CountKey.digit d1, CountKey.digit d2, CountKey.backspace, CountKey.backspace,
       CountKey.backspace] = [c, d1, 10 * d1 + d2, d1, 1, c] := by
  simp [countEntryTrace, countEntryStep, digitsToNat, h1]

/-- C7 witness: the amended trace at the default count 6 with digits 1, 2. -/
theorem C7_count_entry_witness :
    (1 : ℕ) ≠ 0 ∧
    countEntryTrace ⟨6, 0, none⟩
      [CountKey.digit 1, CountKey.digit 2, CountKey.backspace, CountKey.backspace,
       CountKey.backspace] = [6, 1, 12, 1, 1, 6] := by
  refine ⟨by decide, ?_⟩
  have h := C7_count_entry 6 0 1 2 (by decide)
  simpa using h

/-! ## C4: apply message for a non-topmost modifier -/

/-- C4: apply() returns the non-empty informational warning exactly when the
host modifier is not topmost (index 0) in the modifier stack, returns the
empty string when it is topmost, and in both cases the apply itself proceeds
(the modifier leaves the stack). -/
theorem C4_apply_message (stack : List String) (name : String)
    (hmem : name ∈ stack) (hnd : stack.Nodup) :
    ((modifierApply stack name).1 = "" ↔ stack.head? = some name) ∧
    ((modifierApply stack name).1 = notFirstMessage ↔ stack.head? ≠ some name) ∧
    name ∉ (modifierApply stack name).2 := by
  have hfind : bpyFind stack name = (stack.indexOf name : ℤ) := by
    simp [bpyFind, hmem]
  have hidx : stack.indexOf name = 0 ↔ stack.head? = some name := by
    cases stack with
    | nil => cases hmem
    | cons a t =>
        by_cases ha : a = name
        · subst ha
          simp [List.indexOf_cons_self]
        · rw [List.indexOf_cons_ne t ha]
          simp [List.head?_cons, Nat.succ_ne_zero, ha]
  have hne : notFirstMessage ≠ "" := by decide
  refine ⟨?_, ?_, hnd.not_mem_erase⟩
  · constructor
    · intro h
      by_contra hh
      have h0 : stack.indexOf name ≠ 0 := fun he => hh (hidx.mp he)
      have hpos : 0 < bpyFind stack name := by
        rw [hfind]
        exact_mod_cast Nat.pos_of_ne_zero h0
      simp [modifierApply, hpos] at h
      exact hne h
    · intro h
      have h0 : stack.indexOf name = 0 := hidx.mpr h
      have : ¬ 0 < bpyFind stack name := by
        rw [hfind, h0]
        norm_num
      simp [modifierApply, this]
  · constructor
    · intro h hh
      have h0 : stack.indexOf name = 0 := hidx.mpr hh
      have : ¬ 0 < bpyFind stack name := by
        rw [hfind, h0]
        norm_num
      simp [modifierApply, this] at h
      exact hne h.symm
    · intro h
      have h0 : stack.indexOf name ≠ 0 := fun he => h (hidx.mp he)
      have hpos : 0 < bpyFind stack name := by
        rw [hfind]
        exact_mod_cast Nat.pos_of_ne_zero h0
      simp [modifierApply, hpos]

/-- C4 witness: applying the second of two modifiers returns the warning,
applying a topmost modifier returns the empty string. -/
theorem C4_apply_message_witness :
    ("M2" ∈ (["M1", "M2"] : List String)) ∧
    (modifierApply (["M1", "M2"]) ("M2")).1 = notFirstMessage ∧
    (modifierApply (["M1", "M2"]) ("M1")).1 = "" := by
  refine ⟨by decide, ?_, ?_⟩
  · exact ((C4_apply_message (["M1", "M2"]) ("M2") (by decide) (by decide)).2.1).mpr (by decide)
  · exact ((C4_apply_message (["M1", "M2"]) ("M1") (by decide) (by decide)).1).mpr (by decide)

/-! ## C5: session pivot point re-resolution -/

/-- C5: the modal pivot resolution consults the last-set-pivot-point map
first (an unchanged symbol is not re-resolved at all), and toggling back to
the ORIGIN (or CENTER_EMPTY) symbol when that was the pivot type captured in
the initial-attributes snapshot resolves to the snapshot coordinate instead
of re-querying the scene. -/
theorem C5_pivot_reuse (lastSet : Option PivotSym) (current : PivotSym)
    (ia : Option (PivotSym × V3Q)) :
    (lastSet = some current → getPivotPoint lastSet current ia = PivotArg.keep) ∧
    (∀ co, lastSet ≠ some current → ia = some (PivotSym.ORIGIN, co) →
      current = PivotSym.ORIGIN → getPivotPoint lastSet current ia = PivotArg.coord co) ∧
    (∀ co, lastSet ≠ some current → ia = some (PivotSym.CENTER_EMPTY, co) →
      current = PivotSym.CENTER_EMPTY →
      getPivotPoint lastSet current ia = PivotArg.coord co) := by
  refine ⟨?_, ?_, ?_⟩
  · intro h
    simp [getPivotPoint, h]
  · intro co h hia hc
    subst hc
    subst hia
    simp [getPivotPoint, h]
  · intro co h hia hc
    subst hc
    subst hia
    simp [getPivotPoint, h]

/-- C5 witness: after setting the pivot to CURSOR, switching back to ORIGIN
with an ORIGIN initial snapshot resolves to the snapshot coordinate. -/
theorem C5_pivot_reuse_witness :
    some PivotSym.CURSOR ≠ some PivotSym.ORIGIN ∧
    getPivotPoint (some PivotSym.CURSOR) PivotSym.ORIGIN
      (some (PivotSym.ORIGIN, ⟨1, 2, 3⟩)) = PivotArg.coord ⟨1, 2, 3⟩ := by
  refine ⟨by decide, ?_⟩
  exact (C5_pivot_reuse (some PivotSym.CURSOR) PivotSym.ORIGIN
    (some (PivotSym.ORIGIN, ⟨1, 2, 3⟩))).2.1 ⟨1, 2, 3⟩ (by decide) rfl rfl

/-! ## C10: the count > 1 guard -/

/-- C10: with count 1 the offset-empty step of an Array refresh is skipped
entirely (the offset empty transform and children are untouched) and the
Duplicates transform step is skipped entirely, so the (count - 1)
denominators of the angular-step formulas are never evaluated at count 1. -/
theorem C10_count_one_guard (sa : AState) (sd : DState)
    (ha : sa.props.count = 1) (hd : sd.props.count = 1) :
    offsetEmptyRefreshA sa = sa ∧ setTransformsD sd = sd := by
  constructor
  · simp [offsetEmptyRefreshA, ha]
  · simp [setTransformsD, hd]

/-- C10 witness: concrete Array and Duplicates constructs with count 1 are
left untouched by the guarded steps. -/
theorem C10_count_one_guard_witness :
    astateCount1Ex.props.count = 1 ∧
    offsetEmptyRefreshA astateCount1Ex = astateCount1Ex ∧
    setTransformsD dstateCount1Ex = dstateCount1Ex := by
  refine ⟨rfl, ?_, ?_⟩
  · exact (C10_count_one_guard astateCount1Ex dstateCount1Ex rfl rfl).1
  · exact (C10_count_one_guard astateCount1Ex dstateCount1Ex rfl rfl).2

/-! ## C9: canonical stack position of a freshly added array modifier -/

/-- Helper: findIdx at the boundary between a failing prefix and a hit. -/
theorem findIdx_append_boundary (p : Mod → Bool) (xs : List Mod) (y : Mod) (ys : List Mod)
    (hxs : ∀ x ∈ xs, p x = false) (hy : p y = true) :
    List.findIdx p (xs ++ y :: ys) = xs.length := by
  induction xs with
  | nil => simp [List.findIdx_cons, hy]
  | cons a t ih =>
      have ha := hxs a (by simp)
      simp [List.findIdx_cons, ha, ih (fun x hx => hxs x (by simp [hx]))]

/-- Helper: filtering out the freshly appended modifier by name recovers the
previous stack. -/
theorem filter_ne_append_self (l : List Mod) (m : Mod) (hm : m.name ∉ l.map Mod.name) :
    (l ++ [m]).filter (fun x => decide (x.name ≠ m.name)) = l := by
  rw [List.filter_append]
  have h1 : l.filter (fun x => decide (x.name ≠ m.name)) = l := by
    apply List.filter_eq_self.mpr
    intro x hx
    simp only [decide_eq_true_eq]
    intro he
    exact hm (he ▸ List.mem_map_of_mem Mod.name hx)
  have h2 : ([m]).filter (fun x => decide (x.name ≠ m.name)) = ([] : List Mod) := by simp
  rw [h1, h2, List.append_nil]

/-- Helper: searching the reversed stack finds the last element satisfying
the predicate. -/
theorem reverse_find_last (p : Mod → Bool) (l₁ : List Mod) (r : Mod) (l₂ : List Mod)
    (hr : p r = true) (h2 : ∀ x ∈ l₂, p x = false) :
    ((l₁ ++ r :: l₂).reverse.find? p) = some r := by
  rw [List.reverse_append, List.reverse_cons, List.find?_append, List.find?_append]
  have hnone : l₂.reverse.find? p = none :=
    List.find?_eq_none.mpr (fun x hx => by simp [h2 x (List.mem_reverse.mp hx)])
  rw [hnone, List.find?_cons_of_pos _ hr]
  rfl

/-- Helper: moving the appended modifier to the slot after index j. -/
theorem moveMod_append_after (l : List Mod) (m : Mod) (j : ℕ) (hj : j < l.length) :
    moveMod (l ++ [m]) l.length (j + 1) = l.take (j + 1) ++ m :: l.drop (j + 1) := by
  unfold moveMod
  have hget : (l ++ [m]).get? l.length = some m := by
    rw [List.get?_append_right (le_refl _)]
    simp
  rw [hget]
  unfold removeAt insertAt
  have hd : (l ++ [m]).drop (l.length + 1) = ([] : List Mod) := by
    have := @List.drop_append Mod l [m] 1
    simpa using this
  rw [List.take_left, hd, List.append_nil]

/-- Helper: moving the appended modifier to the top of the stack. -/
theorem moveMod_append_top (l : List Mod) (m : Mod) :
    moveMod (l ++ [m]) l.length 0 = m :: l := by
  unfold moveMod
  have hget : (l ++ [m]).get? l.length = some m := by
    rw [List.get?_append_right (le_refl _)]
    simp
  rw [hget]
  unfold removeAt insertAt
  have hd : (l ++ [m]).drop (l.length + 1) = ([] : List Mod) := by
    have := @List.drop_append Mod l [m] 1
    simpa using this
  rw [List.take_left, hd, List.append_nil]
  simp

/-- Helper: the name of the last matching reference modifier does not occur
in the stack prefix before it, given name uniqueness. -/
theorem ref_not_in_prefix (l₁ : List Mod) (r : Mod) (l₂ : List Mod)
    (hnd : ((l₁ ++ r :: l₂).map Mod.name).Nodup) :
    ∀ x ∈ l₁, x.name ≠ r.name := by
  intro x hx he
  rw [List.map_append, List.nodup_append] at hnd
  exact hnd.2.2 (List.mem_map_of_mem Mod.name hx) (by simp [he])

/-- Helper: the common move-after computation of sort_array_mod, for a
reference r that is the last match in the previous stack. -/
theorem sort_move_after (l₁ : List Mod) (r : Mod) (l₂ : List Mod) (m : Mod)
    (hm : m.name ∉ (l₁ ++ r :: l₂).map Mod.name)
    (hnd : ((l₁ ++ r :: l₂).map Mod.name).Nodup) :
    moveMod ((l₁ ++ r :: l₂) ++ [m]) (findModIdx ((l₁ ++ r :: l₂) ++ [m]) m.name)
      (getModifierIndex (findModIdx ((l₁ ++ r :: l₂) ++ [m]) m.name)
        (findModIdx ((l₁ ++ r :: l₂) ++ [m]) r.name) Position.AFTER) =
    l₁ ++ r :: m :: l₂ := by
  set l := l₁ ++ r :: l₂ with hl
  have hidxm : findModIdx (l ++ [m]) m.name = l.length := by
    unfold findModIdx
    apply findIdx_append_boundary
    · intro x hx
      simp only [decide_eq_false_iff_not]
      intro he
      exact hm (he ▸ List.mem_map_of_mem Mod.name hx)
    · simp
  have hidxr : findModIdx (l ++ [m]) r.name = l₁.length := by
    unfold findModIdx
    have hassoc : l ++ [m] = l₁ ++ r :: (l₂ ++ [m]) := by
      rw [hl]
      simp
    rw [hassoc]
    apply findIdx_append_boundary
    · intro x hx
      simp only [decide_eq_false_iff_not]
      exact ref_not_in_prefix l₁ r l₂ hnd x hx
    · simp
  have hlen : l₁.length < l.length := by
    rw [hl]
    simp only [List.length_append, List.length_cons]
    omega
  have hgm : getModifierIndex l.length l₁.length Position.AFTER = l₁.length + 1 := by
    unfold getModifierIndex
    have : ¬ l.length < l₁.length := by omega
    simp [this]
  rw [hidxm, hidxr, hgm, moveMod_append_after l m l₁.length hlen]
  rw [hl]
  have ht : (l₁ ++ r :: l₂).take (l₁.length + 1) = l₁ ++ [r] := by
    rw [List.take_append]
    simp [List.take_cons]
  have hdr : (l₁ ++ r :: l₂).drop (l₁.length + 1) = l₂ := by
    rw [List.drop_append]
    simp
  rw [ht, hdr]
  simp

/-- C9 counterexample: a stack holding only a screw modifier below the new
array modifier.  The claim (same-kind array, else mirror, else top) places
the array modifier at index 0; sort_array_mod instead keeps it at index 1,
immediately after the screw modifier, through a branch the claim omits. -/
theorem C9_sort_counterexample :
    sortArrayMod [⟨"RadialScrew", ModType.SCREW, false⟩, ⟨"RadialArray", ModType.ARRAY, false⟩]
      ("RadialArray") =
      [⟨"RadialScrew", ModType.SCREW, false⟩, ⟨"RadialArray", ModType.ARRAY, false⟩] ∧
    ([⟨"RadialScrew", ModType.SCREW, false⟩, ⟨"RadialArray", ModType.ARRAY, false⟩] : List Mod) ≠
      [⟨"RadialArray", ModType.ARRAY, false⟩, ⟨"RadialScrew", ModType.SCREW, false⟩] := by
  constructor
  · rfl
  · decide

/-- C9 amended: a freshly appended array modifier is re-sorted to sit
immediately after the last other array modifier when one exists, else
immediately after the last screw modifier when one exists, else immediately
after the last mirror modifier without a mirror object when one exists, else
at the top of the stack (index 0). -/
theorem C9_sort_array_mod (l : List Mod) (m : Mod)
    (hm : m.name ∉ l.map Mod.name) (hnd : (l.map Mod.name).Nodup) :
    ((∀ x ∈ l, x.type ≠ ModType.ARRAY) → (∀ x ∈ l, x.type ≠ ModType.SCREW) →
      (∀ x ∈ l, ¬(x.type = ModType.MIRROR ∧ x.mirrorObjectIsNone = true)) →
      sortArrayMod (l ++ [m]) m.name = m :: l) ∧
    (∀ l₁ r l₂, l = l₁ ++ r :: l₂ → r.type = ModType.ARRAY →
      (∀ x ∈ l₂, x.type ≠ ModType.ARRAY) →
      sortArrayMod (l ++ [m]) m.name = l₁ ++ r :: m :: l₂) ∧
    ((∀ x ∈ l, x.type ≠ ModType.ARRAY) →
      ∀ l₁ r l₂, l = l₁ ++ r :: l₂ → r.type = ModType.SCREW →
      (∀ x ∈ l₂, x.type ≠ ModType.SCREW) →
      sortArrayMod (l ++ [m]) m.name = l₁ ++ r :: m :: l₂) ∧
    ((∀ x ∈ l, x.type ≠ ModType.ARRAY) → (∀ x ∈ l, x.type ≠ ModType.SCREW) →
      ∀ l₁ r l₂, l = l₁ ++ r :: l₂ →
      r.type = ModType.MIRROR ∧ r.mirrorObjectIsNone = true →
      (∀ x ∈ l₂, ¬(x.type = ModType.MIRROR ∧ x.mirrorObjectIsNone = true)) →
      sortArrayMod (l ++ [m]) m.name = l₁ ++ r :: m :: l₂) := by
  have hidxm : findModIdx (l ++ [m]) m.name = l.length := by
    unfold findModIdx
    apply findIdx_append_boundary
    · intro x hx
      simp only [decide_eq_false_iff_not]
      intro he
      exact hm (he ▸ List.mem_map_of_mem Mod.name hx)
    · simp
  refine ⟨?_, ?_, ?_, ?_⟩
  · intro hA hS hM
    simp only [sortArrayMod]
    rw [filter_ne_append_self l m hm]
    have fA : l.reverse.find? (fun x => decide (x.type = ModType.ARRAY)) = none :=
      List.find?_eq_none.mpr (fun x hx => by
        simp [hA x (List.mem_reverse.mp hx)])
    have fS : l.reverse.find? (fun x => decide (x.type = ModType.SCREW)) = none :=
      List.find?_eq_none.mpr (fun x hx => by
        simp [hS x (List.mem_reverse.mp hx)])
    have fM : l.reverse.find?
        (fun x => decide (x.type = ModType.MIRROR ∧ x.mirrorObjectIsNone = true)) = none :=
      List.find?_eq_none.mpr (fun x hx => by
        simp [hM x (List.mem_reverse.mp hx)])
    rw [fA, fS, fM, hidxm]
    exact moveMod_append_top l m
  · intro l₁ r l₂ hl hr h2
    subst hl
    simp only [sortArrayMod]
    rw [filter_ne_append_self _ m hm]
    have fA : (l₁ ++ r :: l₂).reverse.find? (fun x => decide (x.type = ModType.ARRAY)) = some r :=
      reverse_find_last _ l₁ r l₂ (by simp [hr]) (fun x hx => by simp [h2 x hx])
    rw [fA]
    exact sort_move_after l₁ r l₂ m hm hnd
  · intro hA l₁ r l₂ hl hr h2
    subst hl
    simp only [sortArrayMod]
    rw [filter_ne_append_self _ m hm]
    have fA : (l₁ ++ r :: l₂).reverse.find? (fun x => decide (x.type = ModType.ARRAY)) = none :=
      List.find?_eq_none.mpr (fun x hx => by
        simp [hA x (List.mem_reverse.mp hx)])
    have fS : (l₁ ++ r :: l₂).reverse.find? (fun x => decide (x.type = ModType.SCREW)) = some r :=
      reverse_find_last _ l₁ r l₂ (by simp [hr]) (fun x hx => by simp [h2 x hx])
    rw [fA, fS]
    exact sort_move_after l₁ r l₂ m hm hnd
  · intro hA hS l₁ r l₂ hl hr h2
    subst hl
    simp only [sortArrayMod]
    rw [filter_ne_append_self _ m hm]
    have fA : (l₁ ++ r :: l₂).reverse.find? (fun x => decide (x.type = ModType.ARRAY)) = none :=
      List.find?_eq_none.mpr (fun x hx => by
        simp [hA x (List.mem_reverse.mp hx)])
    have fS : (l₁ ++ r :: l₂).reverse.find? (fun x => decide (x.type = ModType.SCREW)) = none :=
      List.find?_eq_none.mpr (fun x hx => by
        simp [hS x (List.mem_reverse.mp hx)])
    have fM : (l₁ ++ r :: l₂).reverse.find?
        (fun x => decide (x.type = ModType.MIRROR ∧ x.mirrorObjectIsNone = true)) = some r :=
      reverse_find_last _ l₁ r l₂ (by simp [hr.1, hr.2]) (fun x hx => by simp [h2 x hx])
    rw [fA, fS, fM]
    exact sort_move_after l₁ r l₂ m hm hnd

/-! ## Geometry evaluation toolkit -/

/-- Helper: componentwise sum with the zero vector. -/
theorem V3.add_zero_right (v : V3) : v.add V3.zero = v := by
  simp [V3.add, V3.zero]

/-- Helper: zero plus a vector. -/
theorem V3.add_zero_left (v : V3) : V3.zero.add v = v := by
  simp [V3.add, V3.zero]

/-- Helper: negation of the zero vector. -/
theorem V3.neg_zero_eq : V3.zero.neg = V3.zero := by
  simp [V3.neg, V3.zero]

/-- Helper: scaling by zero. -/
theorem V3.smul_zero_eq (v : V3) : v.smul 0 = V3.zero := by
  simp [V3.smul, V3.zero]

/-- Helper: scaling the zero vector. -/
theorem V3.zero_smul_eq (r : ℝ) : V3.zero.smul r = V3.zero := by
  simp [V3.smul, V3.zero]

/-- Helper: dot product with the zero vector on the left. -/
theorem V3.zero_dot (v : V3) : V3.zero.dot v = 0 := by
  simp [V3.dot, V3.zero]

/-- Helper: projecting the zero vector yields the zero vector. -/
theorem V3.project_zero (u : V3) : V3.project V3.zero u = V3.zero := by
  simp [V3.project, V3.zero_dot, V3.zero_smul_eq, V3.smul_zero_eq]

/-- Helper: the difference of a vector with itself. -/
theorem V3.sub_self_eq (v : V3) : v.sub v = V3.zero := by
  simp [V3.sub, V3.zero]

/-- Helper: the zero vector normalises to the zero vector. -/
theorem V3.normalized_zero : V3.zero.normalized = V3.zero := by
  simp [V3.normalized, V3.zero_smul_eq]

/-- Helper: identity times a matrix. -/
theorem M3.id_mul_mat (a : M3) : M3.id.mul a = a := by
  simp [M3.mul, M3.id]

/-- Helper: a matrix times the identity. -/
theorem M3.mul_id_mat (a : M3) : a.mul M3.id = a := by
  simp [M3.mul, M3.id]

/-- Helper: identity applied to a vector. -/
theorem M3.id_mulVec (v : V3) : M3.id.mulVec v = v := by
  simp [M3.mulVec, M3.id]

/-- Helper: transpose of the identity. -/
theorem M3.transpose_id : M3.id.transpose = M3.id := rfl

/-- Helper: determinant of the identity. -/
theorem M3.det_id : M3.id.det = 1 := by
  simp [M3.det, M3.id]

/-- Helper: inverse of the identity. -/
theorem M3.inv_id : M3.id.inv = M3.id := by
  simp [M3.inv, M3.det, M3.id]

/-- Helper: identity composed with an affine transform. -/
theorem Aff.id_mul_eq (a : Aff) : Aff.id.mul a = a := by
  simp [Aff.mul, Aff.id, M3.id_mul_mat, M3.id_mulVec, V3.add_zero_right]

/-- Helper: an affine transform composed with the identity. -/
theorem Aff.mul_id_eq (a : Aff) : a.mul Aff.id = a := by
  cases a with
  | mk lin tra =>
      simp [Aff.mul, Aff.id, M3.mul_id_mat]
      simp [M3.mulVec, V3.zero, V3.add]

/-- Helper: the inverse of the identity transform. -/
theorem Aff.inverse_id : Aff.id.inverse = Aff.id := by
  simp [Aff.inverse, Aff.id, M3.inv_id, M3.id_mulVec, V3.neg_zero_eq]

/-- Helper: the identity applied to a point. -/
theorem Aff.apply_id (v : V3) : Aff.id.apply v = v := by
  simp [Aff.apply, Aff.id, M3.id_mulVec, V3.add_zero_right]

/-- Helper: translation by the zero vector is the identity. -/
theorem Aff.translation_zero : Aff.translation V3.zero = Aff.id := rfl

/-- Helper: rotating by angle zero gives the identity transform. -/
theorem Aff.rotation_zero (v : V3) : Aff.rotation 0 v = Aff.id := by
  unfold Aff.rotation Aff.id M3.id
  rw [Real.cos_zero, Real.sin_zero]
  norm_num

/-- Helper: the scale of the identity transform. -/
theorem Aff.toScale_id : Aff.id.toScale = ⟨1, 1, 1⟩ := by
  unfold Aff.toScale Aff.id M3.id M3.col0 M3.col1 M3.col2
  simp [V3.length, V3.lengthSq, V3.dot]

/-- Helper: the unit diagonal transform is the identity. -/
theorem Aff.diagonal4_one : Aff.diagonal4 ⟨1, 1, 1⟩ = Aff.id := rfl

/-- Helper: the row multiplication of a vector with the identity. -/
theorem V3.rowMul_id (v : V3) : v.rowMul Aff.id = v := by
  simp [V3.rowMul, Aff.id, M3.transpose_id, M3.id_mulVec]

/-- Helper: the translation part of the identity transform. -/
theorem Aff.id_tra : Aff.id.tra = V3.zero := rfl

/-- Helper: the translation part of a rotation transform is zero. -/
theorem Aff.rotation_tra (t : ℝ) (v : V3) : (Aff.rotation t v).tra = V3.zero := rfl

/-- Helper: writing a zero translation into the identity transform. -/
theorem Aff.setTranslation_id_zero : Aff.id.setTranslation V3.zero = Aff.id := rfl

/-! ## C6: sibling regeneration on count change -/

/-- Helper: the per-sibling transform rewrite keeps identifier and parent. -/
theorem dupTransform_id_parent (s : DState) (svo svw : V3) (step : ℚ) (i a : ℕ) (o : DupObj) :
    (dupTransform s svo svw step i a o).id = o.id ∧
    (dupTransform s svo svw step i a o).parent = o.parent := by
  simp [dupTransform]

/-- Helper: the transform loop keeps the identifier list. -/
theorem setTransformsGo_map_id (s : DState) (svo svw : V3) (step : ℚ) :
    ∀ (l : List DupObj) (i r : ℕ),
      ((setTransformsGo s svo svw step i r l).1).map DupObj.id = l.map DupObj.id := by
  intro l
  induction l with
  | nil => intro i r; rfl
  | cons o os ih =>
      intro i r
      simp [setTransformsGo, (dupTransform_id_parent s svo svw step i _ o).1, ih]

/-- Helper: the transform step of a refresh keeps the identifier list. -/
theorem setTransformsD_map_id (s : DState) :
    ((setTransformsD s).duplis).map DupObj.id = s.duplis.map DupObj.id := by
  unfold setTransformsD
  split
  · exact setTransformsGo_map_id s _ _ _ s.duplis 1 s.rngIdx
  · rfl

/-- Helper: the transform step keeps the center identifier. -/
theorem setTransformsD_centerId (s : DState) : (setTransformsD s).centerId = s.centerId := by
  unfold setTransformsD
  split <;> rfl

/-- C6: changing a Duplicates construct count to M and refreshing always
yields exactly M - 1 siblings, all parented to the pivot helper, and none of
them is one of the previously existing sibling objects: the refresh deletes
every sibling and recreates fresh copies, it never diffs incrementally. -/
theorem C6_sibling_count (s : DState) (M : ℕ) (h1 : 1 ≤ M) (h2 : s.props.count = M)
    (hfresh : ∀ o ∈ s.duplis, o.id < s.nextId) :
    (refreshD s).duplis.length = M - 1 ∧
    (∀ o ∈ (refreshD s).duplis, o.parent = some s.centerId) ∧
    (∀ o ∈ (refreshD s).duplis, ∀ p ∈ s.duplis, o.id ≠ p.id) := by
  have hids : ((refreshD s).duplis).map DupObj.id =
      (List.range (M - 1)).map (fun k => s.nextId + k) := by
    unfold refreshD setParentD
    rw [List.map_map]
    have : (DupObj.id ∘ fun o => { o with parent := some (setTransformsD (setCountD (startingRefreshD s))).centerId, parentInv := (setTransformsD (setCountD (startingRefreshD s))).centerMx.inverse }) = DupObj.id := by
      funext o
      rfl
    rw [this, setTransformsD_map_id]
    unfold setCountD startingRefreshD
    simp only [List.map_map, h2]
    rfl
  refine ⟨?_, ?_, ?_⟩
  · have := congrArg List.length hids
    simpa using this
  · intro o ho
    unfold refreshD setParentD at ho
    simp only [List.mem_map] at ho
    obtain ⟨p, _, hp⟩ := ho
    rw [← hp]
    simp [setTransformsD_centerId]
    rfl
  · intro o ho p hp
    have hoid : o.id ∈ ((refreshD s).duplis).map DupObj.id := List.mem_map_of_mem DupObj.id ho
    rw [hids] at hoid
    simp only [List.mem_map, List.mem_range] at hoid
    obtain ⟨k, _, hk⟩ := hoid
    have := hfresh p hp
    omega

/-- C6 witness: a construct with two stale siblings and count 3 ends with
exactly two fresh siblings. -/
theorem C6_sibling_count_witness :
    (1 ≤ 3 ∧ dstateC6Ex.props.count = 3) ∧
    (refreshD dstateC6Ex).duplis.length = 3 - 1 := by
  refine ⟨⟨by decide, rfl⟩, ?_⟩
  exact (C6_sibling_count dstateC6Ex 3 (by decide) rfl (by decide)).1

/-! ## C8: degenerate displacement fallback -/

/-- C8 amended: for Array and Screw constructs with a nonzero radius offset,
the fallback fires exactly when the geometry center's full pivot-space
offset - including its component along the spin axis - has squared length
below 1/1000; then the radius displacement is synthesized deterministically
from the all-axes vector (1,1,1) flattened against the spin axis.  A center
merely lying on the spin axis but away from the pivot gets no fallback, and
the Duplicates displacement helper has no fallback at all (see the
counterexample for both failures of the original claim). -/
theorem C8_displace_fallback (sa : AState) (ss : SState)
    (ha0 : sa.props.radius_offset ≠ 0)
    (hanz : ((sa.obMx.setTranslation (pivotCoA sa)).inverse.apply
      sa.dataCenterCoWorld).lengthSq < 1/1000)
    (hs0 : ss.props.radius_offset ≠ 0)
    (hsnz : ((ss.obMx.setTranslation (pivotCoS ss)).inverse.apply
      ss.meshCenterCoWorld).lengthSq < 1/1000) :
    arrayDisplaceOffsetVec sa =
      (((⟨1, 1, 1⟩ : V3).sub ((⟨1, 1, 1⟩ : V3).project (spinVecObjectA sa))).normalized).smul
        ((sa.props.radius_offset : ℝ)) ∧
    screwDisplaceOffsetVec ss =
      (((⟨1, 1, 1⟩ : V3).sub ((⟨1, 1, 1⟩ : V3).project (spinVecObjectS ss))).normalized).smul
        ((ss.props.radius_offset : ℝ)) := by
  constructor
  · simp only [arrayDisplaceOffsetVec]
    rw [if_neg ha0, if_pos hanz]
  · simp only [screwDisplaceOffsetVec]
    rw [if_neg hs0, if_pos hsnz]

/-- Helper: the claim-promised fallback direction for spin axis Z and unit
radius is not the zero vector. -/
theorem c8_fallback_nonzero :
    (((⟨1, 1, 1⟩ : V3).sub ((⟨1, 1, 1⟩ : V3).project ⟨0, 0, 1⟩)).normalized).smul
      (((1 : ℚ) : ℝ)) ≠ V3.zero := by
  have hproj : (⟨1, 1, 1⟩ : V3).project ⟨0, 0, 1⟩ = ⟨0, 0, 1⟩ := by
    simp [V3.project, V3.dot, V3.smul]
  rw [hproj]
  have hsub : (⟨1, 1, 1⟩ : V3).sub ⟨0, 0, 1⟩ = ⟨1, 1, 0⟩ := by
    simp [V3.sub]
  rw [hsub]
  intro h
  have hx := congrArg V3.x h
  have hlen : (⟨1, 1, 0⟩ : V3).length = Real.sqrt 2 := by
    norm_num [V3.length, V3.lengthSq, V3.dot]
  simp [V3.normalized, V3.smul, V3.zero, hlen] at hx

/-- Helper: the pivot-space data center of the off-pivot Array example. -/
theorem c8_array_axis_center :
    (astateC8AxisEx.obMx.setTranslation (pivotCoA astateC8AxisEx)).inverse.apply
      astateC8AxisEx.dataCenterCoWorld = ⟨0, 0, 5⟩ := by
  rw [show astateC8AxisEx.obMx.setTranslation (pivotCoA astateC8AxisEx) = Aff.id from rfl,
    Aff.inverse_id, Aff.apply_id]
  rfl

/-- Helper: the spin vector of the off-pivot Array example. -/
theorem c8_array_axis_svo : spinVecObjectA astateC8AxisEx = ⟨0, 0, 1⟩ := by
  show (Aff.getAxisVec Axis.Z (Aff.id.mul Aff.id)).rowMul Aff.id = _
  rw [Aff.mul_id_eq, V3.rowMul_id]
  rfl

/-- Helper: the pivot-space mesh center of the off-pivot Screw example. -/
theorem c8_screw_axis_center :
    (sstateC8AxisEx.obMx.setTranslation (pivotCoS sstateC8AxisEx)).inverse.apply
      sstateC8AxisEx.meshCenterCoWorld = ⟨0, 0, 5⟩ := by
  rw [show sstateC8AxisEx.obMx.setTranslation (pivotCoS sstateC8AxisEx) = Aff.id from rfl,
    Aff.inverse_id, Aff.apply_id]
  rfl

/-- Helper: the spin vector of the off-pivot Screw example. -/
theorem c8_screw_axis_svo : spinVecObjectS sstateC8AxisEx = ⟨0, 0, 1⟩ := by
  show (Aff.getAxisVec Axis.Z (Aff.id.mul Aff.id)).rowMul Aff.id = _
  rw [Aff.mul_id_eq, V3.rowMul_id]
  rfl

/-- Helper: a point on the Z axis projects onto the Z axis as itself. -/
theorem c8_proj_axis : (⟨0, 0, 5⟩ : V3).project ⟨0, 0, 1⟩ = ⟨0, 0, 5⟩ := by
  norm_num [V3.project, V3.dot, V3.smul]

/-- Helper: a pivot-space offset of (0, 0, 5) fails the near-zero test. -/
theorem c8_axis_far : ¬((⟨0, 0, 5⟩ : V3).lengthSq < 1/1000) := by
  norm_num [V3.lengthSq, V3.dot]

/-- C8 counterexample: the claimed fallback fails in two distinct ways.
For an Array or Screw construct whose geometry center lies on the spin axis
but away from the pivot (pivot-space coordinate (0, 0, 5), spin axis Z,
radius offset 1), the center projected onto the plane perpendicular to the
spin axis is exactly zero - the claim's trigger - yet the code takes no
fallback, because the full pivot-space squared length 25 fails the < 1/1000
test; the axis-aligned offset then projects to a zero rejection and the
computed displacement is the zero vector, not the promised nonzero
(1,1,1)-based direction.  And the Duplicates helper has no fallback at all:
a starting object exactly on the pivot also yields the zero displacement
vector. -/
theorem C8_displace_counterexample :
    (((astateC8AxisEx.obMx.setTranslation (pivotCoA astateC8AxisEx)).inverse.apply
        astateC8AxisEx.dataCenterCoWorld).sub
      (((astateC8AxisEx.obMx.setTranslation (pivotCoA astateC8AxisEx)).inverse.apply
        astateC8AxisEx.dataCenterCoWorld).project (spinVecObjectA astateC8AxisEx)) = V3.zero ∧
     arrayDisplaceOffsetVec astateC8AxisEx = V3.zero ∧
     (((⟨1, 1, 1⟩ : V3).sub
       ((⟨1, 1, 1⟩ : V3).project (spinVecObjectA astateC8AxisEx))).normalized).smul
       ((astateC8AxisEx.props.radius_offset : ℝ)) ≠ V3.zero) ∧
    (((sstateC8AxisEx.obMx.setTranslation (pivotCoS sstateC8AxisEx)).inverse.apply
        sstateC8AxisEx.meshCenterCoWorld).sub
      (((sstateC8AxisEx.obMx.setTranslation (pivotCoS sstateC8AxisEx)).inverse.apply
        sstateC8AxisEx.meshCenterCoWorld).project (spinVecObjectS sstateC8AxisEx)) = V3.zero ∧
     screwDisplaceOffsetVec sstateC8AxisEx = V3.zero ∧
     (((⟨1, 1, 1⟩ : V3).sub
       ((⟨1, 1, 1⟩ : V3).project (spinVecObjectS sstateC8AxisEx))).normalized).smul
       ((sstateC8AxisEx.props.radius_offset : ℝ)) ≠ V3.zero) ∧
    (dupDisplaceOffsetVec dstateC8Ex = V3.zero ∧
     (((⟨1, 1, 1⟩ : V3).sub
       ((⟨1, 1, 1⟩ : V3).project (spinVecObjectD dstateC8Ex))).normalized).smul
       ((dstateC8Ex.props.radius : ℝ)) ≠ V3.zero) := by
  have hsvoD : spinVecObjectD dstateC8Ex = ⟨0, 0, 1⟩ := by
    show (Aff.getAxisVec Axis.Z (Aff.id.mul Aff.id)).rowMul Aff.id = _
    rw [Aff.mul_id_eq, V3.rowMul_id]
    rfl
  refine ⟨⟨?_, ?_, ?_⟩, ⟨?_, ?_, ?_⟩, ?_, ?_⟩
  · rw [c8_array_axis_center, c8_array_axis_svo, c8_proj_axis, V3.sub_self_eq]
  · simp only [arrayDisplaceOffsetVec]
    rw [if_neg (by norm_num [astateC8AxisEx] : ¬(astateC8AxisEx.props.radius_offset = 0))]
    rw [c8_array_axis_center, if_neg c8_axis_far, c8_array_axis_svo, c8_proj_axis,
      V3.sub_self_eq, V3.normalized_zero, V3.zero_smul_eq]
  · rw [c8_array_axis_svo, show astateC8AxisEx.props.radius_offset = 1 from rfl]
    exact c8_fallback_nonzero
  · rw [c8_screw_axis_center, c8_screw_axis_svo, c8_proj_axis, V3.sub_self_eq]
  · simp only [screwDisplaceOffsetVec]
    rw [if_neg (by norm_num [sstateC8AxisEx] : ¬(sstateC8AxisEx.props.radius_offset = 0))]
    rw [c8_screw_axis_center, if_neg c8_axis_far, c8_screw_axis_svo, c8_proj_axis,
      V3.sub_self_eq, V3.normalized_zero, V3.zero_smul_eq]
  · rw [c8_screw_axis_svo, show sstateC8AxisEx.props.radius_offset = 1 from rfl]
    exact c8_fallback_nonzero
  · simp only [dupDisplaceOffsetVec]
    rw [if_neg (by norm_num [dstateC8Ex] : ¬(dstateC8Ex.props.radius = 0))]
    have hpivot : dstateC8Ex.centerMx.setTranslation (pivotCoD dstateC8Ex) = Aff.id := rfl
    rw [hpivot, Aff.inverse_id]
    have hstart : Aff.id.apply dstateC8Ex.startingMx.tra = V3.zero := by
      rw [Aff.apply_id]
      rfl
    rw [hstart, V3.project_zero, V3.sub_self_eq, V3.normalized_zero, V3.zero_smul_eq]
  · rw [hsvoD, show dstateC8Ex.props.radius = 1 from rfl]
    exact c8_fallback_nonzero

/-! ## C2: refresh idempotence

Refresh recomputes every derived transform from inputs (object matrix,
property record, pivot) that it does not itself modify, so running it twice
yields the same helper transforms - except that the RANDOM
duplicates-rotation mode draws a fresh pseudo-random angle per sibling on
every refresh.  The lemmas below record which state fields each refresh
stage leaves untouched, and that the computed values only depend on fields
the refresh preserves. -/

@[simp]
theorem nodesA_props (s : AState) : (nodesModRefreshA s).props = s.props := by
  unfold nodesModRefreshA
  dsimp only
  split <;> first
  | rfl
  | (split <;> rfl)

@[simp]
theorem nodesA_obMx (s : AState) : (nodesModRefreshA s).obMx = s.obMx := by
  unfold nodesModRefreshA
  dsimp only
  split <;> first
  | rfl
  | (split <;> rfl)

@[simp]
theorem nodesA_orientMx (s : AState) : (nodesModRefreshA s).orientMx = s.orientMx := by
  unfold nodesModRefreshA
  dsimp only
  split <;> first
  | rfl
  | (split <;> rfl)

@[simp]
theorem nodesA_centerEmpty (s : AState) : (nodesModRefreshA s).centerEmpty = s.centerEmpty := by
  unfold nodesModRefreshA
  dsimp only
  split <;> first
  | rfl
  | (split <;> rfl)

@[simp]
theorem nodesA_parentFlag (s : AState) :
    (nodesModRefreshA s).offsetParentIsOb = s.offsetParentIsOb := by
  unfold nodesModRefreshA
  dsimp only
  split <;> first
  | rfl
  | (split <;> rfl)

@[simp]
theorem nodesA_offsetBasis (s : AState) : (nodesModRefreshA s).offsetBasis = s.offsetBasis := by
  unfold nodesModRefreshA
  dsimp only
  split <;> first
  | rfl
  | (split <;> rfl)

@[simp]
theorem nodesA_offsetParentInv (s : AState) :
    (nodesModRefreshA s).offsetParentInv = s.offsetParentInv := by
  unfold nodesModRefreshA
  dsimp only
  split <;> first
  | rfl
  | (split <;> rfl)

@[simp]
theorem nodesA_offsetWorld (s : AState) : (nodesModRefreshA s).offsetWorld = s.offsetWorld := by
  unfold nodesModRefreshA
  dsimp only
  split <;> first
  | rfl
  | (split <;> rfl)

@[simp]
theorem nodesA_offsetChildren (s : AState) :
    (nodesModRefreshA s).offsetChildren = s.offsetChildren := by
  unfold nodesModRefreshA
  dsimp only
  split <;> first
  | rfl
  | (split <;> rfl)

@[simp]
theorem arrayModR_props (s : AState) : (arrayModRefresh s).props = s.props := rfl

@[simp]
theorem arrayModR_obMx (s : AState) : (arrayModRefresh s).obMx = s.obMx := rfl

@[simp]
theorem arrayModR_orientMx (s : AState) : (arrayModRefresh s).orientMx = s.orientMx := rfl

@[simp]
theorem arrayModR_centerEmpty (s : AState) : (arrayModRefresh s).centerEmpty = s.centerEmpty := rfl

@[simp]
theorem arrayModR_parentFlag (s : AState) :
    (arrayModRefresh s).offsetParentIsOb = s.offsetParentIsOb := rfl

@[simp]
theorem arrayModR_offsetBasis (s : AState) : (arrayModRefresh s).offsetBasis = s.offsetBasis := rfl

@[simp]
theorem arrayModR_offsetParentInv (s : AState) :
    (arrayModRefresh s).offsetParentInv = s.offsetParentInv := rfl

@[simp]
theorem arrayModR_offsetWorld (s : AState) : (arrayModRefresh s).offsetWorld = s.offsetWorld := rfl

@[simp]
theorem arrayModR_offsetChildren (s : AState) :
    (arrayModRefresh s).offsetChildren = s.offsetChildren := rfl

@[simp]
theorem offsetA_props (s : AState) : (offsetEmptyRefreshA s).props = s.props := by
  unfold offsetEmptyRefreshA
  dsimp only
  split <;> first
  | rfl
  | (split <;> rfl)

@[simp]
theorem offsetA_obMx (s : AState) : (offsetEmptyRefreshA s).obMx = s.obMx := by
  unfold offsetEmptyRefreshA
  dsimp only
  split <;> first
  | rfl
  | (split <;> rfl)

@[simp]
theorem offsetA_orientMx (s : AState) : (offsetEmptyRefreshA s).orientMx = s.orientMx := by
  unfold offsetEmptyRefreshA
  dsimp only
  split <;> first
  | rfl
  | (split <;> rfl)

@[simp]
theorem offsetA_centerEmpty (s : AState) :
    (offsetEmptyRefreshA s).centerEmpty = s.centerEmpty := by
  unfold offsetEmptyRefreshA
  dsimp only
  split <;> first
  | rfl
  | (split <;> rfl)

@[simp]
theorem offsetA_parentFlag (s : AState) :
    (offsetEmptyRefreshA s).offsetParentIsOb = s.offsetParentIsOb := by
  unfold offsetEmptyRefreshA
  dsimp only
  split <;> first
  | rfl
  | (split <;> rfl)

/-- Helper: overwriting the parent inverse of children keeps their worlds. -/
theorem childW_map (l : List ChildObj) (w : Aff) :
    ((l.map (fun c => { c with parentInv := w })).map ChildObj.world) = l.map ChildObj.world := by
  rw [List.map_map]
  rfl

@[simp]
theorem offsetA_childrenWorld (s : AState) :
    ((offsetEmptyRefreshA s).offsetChildren).map ChildObj.world =
      s.offsetChildren.map ChildObj.world := by
  unfold offsetEmptyRefreshA
  split
  · split
    · exact childW_map _ _
    · exact childW_map _ _
  · rfl

@[simp]
theorem refreshA_props (s : AState) : (refreshA s).props = s.props := by
  unfold refreshA
  by_cases h : s.obIsMesh <;> simp [h]

@[simp]
theorem refreshA_obMx (s : AState) : (refreshA s).obMx = s.obMx := by
  unfold refreshA
  by_cases h : s.obIsMesh <;> simp [h]

@[simp]
theorem refreshA_orientMx (s : AState) : (refreshA s).orientMx = s.orientMx := by
  unfold refreshA
  by_cases h : s.obIsMesh <;> simp [h]

@[simp]
theorem refreshA_centerEmpty (s : AState) : (refreshA s).centerEmpty = s.centerEmpty := by
  unfold refreshA
  by_cases h : s.obIsMesh <;> simp [h]

@[simp]
theorem refreshA_parentFlag (s : AState) :
    (refreshA s).offsetParentIsOb = s.offsetParentIsOb := by
  unfold refreshA
  by_cases h : s.obIsMesh <;> simp [h]

@[simp]
theorem refreshA_childrenWorld (s : AState) :
    ((refreshA s).offsetChildren).map ChildObj.world = s.offsetChildren.map ChildObj.world := by
  unfold refreshA
  by_cases h : s.obIsMesh <;> simp [h]

/-- Helper: the offset empty step is skipped at count 1 or below. -/
theorem offsetA_skip (s : AState) (hc : ¬ 1 < s.props.count) : offsetEmptyRefreshA s = s := by
  unfold offsetEmptyRefreshA
  rw [if_neg hc]

/-- Helper: a refresh at count 1 or below keeps every helper transform. -/
theorem transformsA_refreshA_small (u : AState) (hc : ¬ 1 < u.props.count) :
    transformsA (refreshA u) = transformsA u := by
  show transformsA (offsetEmptyRefreshA
    (arrayModRefresh (if u.obIsMesh then nodesModRefreshA u else u))) = transformsA u
  by_cases h : u.obIsMesh
  · rw [if_pos h, offsetA_skip _ (by simpa using hc)]
    unfold transformsA
    simp
  · rw [if_neg h, offsetA_skip _ (by simpa using hc)]
    rfl

@[simp]
theorem spinVecObjectA_nodesA (s : AState) :
    spinVecObjectA (nodesModRefreshA s) = spinVecObjectA s := by
  unfold spinVecObjectA
  simp

@[simp]
theorem spinVecObjectA_arrayModR (s : AState) :
    spinVecObjectA (arrayModRefresh s) = spinVecObjectA s := by
  unfold spinVecObjectA
  simp

@[simp]
theorem pivotCoA_nodesA (s : AState) : pivotCoA (nodesModRefreshA s) = pivotCoA s := by
  unfold pivotCoA
  simp

@[simp]
theorem pivotCoA_arrayModR (s : AState) : pivotCoA (arrayModRefresh s) = pivotCoA s := by
  unfold pivotCoA
  simp

@[simp]
theorem stageA_props (x : AState) :
    (arrayModRefresh (if x.obIsMesh then nodesModRefreshA x else x)).props = x.props := by
  by_cases h : x.obIsMesh <;> simp [h]

@[simp]
theorem stageA_obMx (x : AState) :
    (arrayModRefresh (if x.obIsMesh then nodesModRefreshA x else x)).obMx = x.obMx := by
  by_cases h : x.obIsMesh <;> simp [h]

@[simp]
theorem stageA_centerEmpty (x : AState) :
    (arrayModRefresh (if x.obIsMesh then nodesModRefreshA x else x)).centerEmpty =
      x.centerEmpty := by
  by_cases h : x.obIsMesh <;> simp [h]

@[simp]
theorem stageA_parentFlag (x : AState) :
    (arrayModRefresh (if x.obIsMesh then nodesModRefreshA x else x)).offsetParentIsOb =
      x.offsetParentIsOb := by
  by_cases h : x.obIsMesh <;> simp [h]

@[simp]
theorem stageA_offsetBasis (x : AState) :
    (arrayModRefresh (if x.obIsMesh then nodesModRefreshA x else x)).offsetBasis =
      x.offsetBasis := by
  by_cases h : x.obIsMesh <;> simp [h]

@[simp]
theorem stageA_offsetParentInv (x : AState) :
    (arrayModRefresh (if x.obIsMesh then nodesModRefreshA x else x)).offsetParentInv =
      x.offsetParentInv := by
  by_cases h : x.obIsMesh <;> simp [h]

@[simp]
theorem stageA_offsetChildren (x : AState) :
    (arrayModRefresh (if x.obIsMesh then nodesModRefreshA x else x)).offsetChildren =
      x.offsetChildren := by
  by_cases h : x.obIsMesh <;> simp [h]

@[simp]
theorem stageA_spinVec (x : AState) :
    spinVecObjectA (arrayModRefresh (if x.obIsMesh then nodesModRefreshA x else x)) =
      spinVecObjectA x := by
  by_cases h : x.obIsMesh <;> simp [h]

@[simp]
theorem stageA_pivotCo (x : AState) :
    pivotCoA (arrayModRefresh (if x.obIsMesh then nodesModRefreshA x else x)) = pivotCoA x := by
  by_cases h : x.obIsMesh <;> simp [h]

@[simp]
theorem ifStageA_props (x : AState) :
    (if x.obIsMesh then nodesModRefreshA x else x).props = x.props := by
  by_cases h : x.obIsMesh <;> simp [h]

@[simp]
theorem ifStageA_obMx (x : AState) :
    (if x.obIsMesh then nodesModRefreshA x else x).obMx = x.obMx := by
  by_cases h : x.obIsMesh <;> simp [h]

@[simp]
theorem ifStageA_centerEmpty (x : AState) :
    (if x.obIsMesh then nodesModRefreshA x else x).centerEmpty = x.centerEmpty := by
  by_cases h : x.obIsMesh <;> simp [h]

@[simp]
theorem ifStageA_parentFlag (x : AState) :
    (if x.obIsMesh then nodesModRefreshA x else x).offsetParentIsOb =
      x.offsetParentIsOb := by
  by_cases h : x.obIsMesh <;> simp [h]

@[simp]
theorem ifStageA_offsetBasis (x : AState) :
    (if x.obIsMesh then nodesModRefreshA x else x).offsetBasis = x.offsetBasis := by
  by_cases h : x.obIsMesh <;> simp [h]

@[simp]
theorem ifStageA_offsetParentInv (x : AState) :
    (if x.obIsMesh then nodesModRefreshA x else x).offsetParentInv =
      x.offsetParentInv := by
  by_cases h : x.obIsMesh <;> simp [h]

@[simp]
theorem ifStageA_offsetChildren (x : AState) :
    (if x.obIsMesh then nodesModRefreshA x else x).offsetChildren =
      x.offsetChildren := by
  by_cases h : x.obIsMesh <;> simp [h]

@[simp]
theorem ifStageA_spinVec (x : AState) :
    spinVecObjectA (if x.obIsMesh then nodesModRefreshA x else x) =
      spinVecObjectA x := by
  by_cases h : x.obIsMesh <;> simp [h]

@[simp]
theorem ifStageA_pivotCo (x : AState) :
    pivotCoA (if x.obIsMesh then nodesModRefreshA x else x) = pivotCoA x := by
  by_cases h : x.obIsMesh <;> simp [h]

/-- Helper: with count above 1 and the offset empty parented to the object,
the helper transforms after the offset step only depend on the step inputs. -/
theorem transformsA_offsetA_congr_parented (wx wy : AState)
    (hc : 1 < wy.props.count) (hp : wy.offsetParentIsOb = true)
    (e1 : wx.props = wy.props) (e2 : wx.obMx = wy.obMx)
    (e3 : wx.centerEmpty = wy.centerEmpty)
    (e4 : wx.offsetParentIsOb = wy.offsetParentIsOb)
    (e5 : wx.offsetChildren.map ChildObj.world = wy.offsetChildren.map ChildObj.world)
    (e6 : spinVecObjectA wx = spinVecObjectA wy)
    (e7 : pivotCoA wx = pivotCoA wy) :
    transformsA (offsetEmptyRefreshA wx) = transformsA (offsetEmptyRefreshA wy) := by
  have hcx : 1 < wx.props.count := by rw [e1]; exact hc
  unfold offsetEmptyRefreshA transformsA
  dsimp only
  rw [if_pos hcx, if_pos hc, if_pos (e4.trans hp), if_pos hp]
  simp only [childW_map, e1, e2, e3, e5, e6, e7]

/-- Helper: with count above 1 and the offset empty not parented to the
object, the helper transforms after the offset step only depend on the step
inputs together with the untouched basis and parent inverse. -/
theorem transformsA_offsetA_congr_free (wx wy : AState)
    (hc : 1 < wy.props.count) (hp : wy.offsetParentIsOb = false)
    (e1 : wx.props = wy.props) (e2 : wx.obMx = wy.obMx)
    (e3 : wx.centerEmpty = wy.centerEmpty)
    (e4 : wx.offsetParentIsOb = wy.offsetParentIsOb)
    (e5 : wx.offsetChildren.map ChildObj.world = wy.offsetChildren.map ChildObj.world)
    (e6 : spinVecObjectA wx = spinVecObjectA wy)
    (e7 : pivotCoA wx = pivotCoA wy)
    (e8 : wx.offsetBasis = wy.offsetBasis)
    (e9 : wx.offsetParentInv = wy.offsetParentInv) :
    transformsA (offsetEmptyRefreshA wx) = transformsA (offsetEmptyRefreshA wy) := by
  have hcx : 1 < wx.props.count := by rw [e1]; exact hc
  have hx : ¬ (wx.offsetParentIsOb = true) := by
    rw [e4, hp]
    simp
  have hy : ¬ (wy.offsetParentIsOb = true) := by
    rw [hp]
    simp
  unfold offsetEmptyRefreshA transformsA
  dsimp only
  rw [if_pos hcx, if_pos hc, if_neg hx, if_neg hy]
  simp only [childW_map, e1, e2, e3, e5, e6, e7, e8, e9]

/-- Helper: with count above 1 and the offset empty parented to the object,
the helper transforms after a refresh only depend on the refresh inputs. -/
theorem transformsA_refreshA_congr_parented (x y : AState) (hc : 1 < y.props.count)
    (hp : y.offsetParentIsOb = true)
    (h1 : x.props = y.props) (h2 : x.obMx = y.obMx) (h3 : x.orientMx = y.orientMx)
    (h4 : x.centerEmpty = y.centerEmpty) (h5 : x.offsetParentIsOb = y.offsetParentIsOb)
    (h6 : x.offsetChildren.map ChildObj.world = y.offsetChildren.map ChildObj.world) :
    transformsA (refreshA x) = transformsA (refreshA y) := by
  have hsv : spinVecObjectA x = spinVecObjectA y := by
    unfold spinVecObjectA
    rw [h1, h2, h3]
  have hpv : pivotCoA x = pivotCoA y := by
    unfold pivotCoA
    rw [h2, h4]
  show transformsA (offsetEmptyRefreshA
      (arrayModRefresh (if x.obIsMesh then nodesModRefreshA x else x))) =
    transformsA (offsetEmptyRefreshA
      (arrayModRefresh (if y.obIsMesh then nodesModRefreshA y else y)))
  refine transformsA_offsetA_congr_parented _ _ ?_ ?_ ?_ ?_ ?_ ?_ ?_ ?_ ?_
  · simpa using hc
  · simpa using hp
  · simpa using h1
  · simpa using h2
  · simpa using h4
  · simpa using h5
  · simpa using h6
  · simpa using hsv
  · simpa using hpv

/-- Helper: the offset basis is untouched when the empty is not parented to
the object. -/
theorem offsetA_basis_nonparented (s : AState) (h : s.offsetParentIsOb = false) :
    (offsetEmptyRefreshA s).offsetBasis = s.offsetBasis := by
  unfold offsetEmptyRefreshA
  dsimp only
  split
  · rw [if_neg (by simp [h] : ¬ (s.offsetParentIsOb = true))]
  · rfl

/-- Helper: the offset parent inverse is untouched when the empty is not
parented to the object. -/
theorem offsetA_parentInv_nonparented (s : AState) (h : s.offsetParentIsOb = false) :
    (offsetEmptyRefreshA s).offsetParentInv = s.offsetParentInv := by
  unfold offsetEmptyRefreshA
  dsimp only
  split
  · rw [if_neg (by simp [h] : ¬ (s.offsetParentIsOb = true))]
  · rfl

/-- Helper: a full refresh keeps the offset basis when the empty is not
parented to the object. -/
theorem refreshA_basis_nonparented (s : AState) (h : s.offsetParentIsOb = false) :
    (refreshA s).offsetBasis = s.offsetBasis := by
  show (offsetEmptyRefreshA
    (arrayModRefresh (if s.obIsMesh then nodesModRefreshA s else s))).offsetBasis = _
  rw [offsetA_basis_nonparented _ (by simpa using h)]
  simp

/-- Helper: a full refresh keeps the offset parent inverse when the empty is
not parented to the object. -/
theorem refreshA_parentInv_nonparented (s : AState) (h : s.offsetParentIsOb = false) :
    (refreshA s).offsetParentInv = s.offsetParentInv := by
  show (offsetEmptyRefreshA
    (arrayModRefresh (if s.obIsMesh then nodesModRefreshA s else s))).offsetParentInv = _
  rw [offsetA_parentInv_nonparented _ (by simpa using h)]
  simp

/-- Helper: with count above 1 and the offset empty not parented to the
object, the helper transforms after a refresh only depend on the refresh
inputs together with the untouched basis and parent inverse. -/
theorem transformsA_refreshA_congr_free (x y : AState) (hc : 1 < y.props.count)
    (hp : y.offsetParentIsOb = false)
    (h1 : x.props = y.props) (h2 : x.obMx = y.obMx) (h3 : x.orientMx = y.orientMx)
    (h4 : x.centerEmpty = y.centerEmpty) (h5 : x.offsetParentIsOb = y.offsetParentIsOb)
    (h6 : x.offsetChildren.map ChildObj.world = y.offsetChildren.map ChildObj.world)
    (h7 : x.offsetBasis = y.offsetBasis) (h8 : x.offsetParentInv = y.offsetParentInv) :
    transformsA (refreshA x) = transformsA (refreshA y) := by
  have hsv : spinVecObjectA x = spinVecObjectA y := by
    unfold spinVecObjectA
    rw [h1, h2, h3]
  have hpv : pivotCoA x = pivotCoA y := by
    unfold pivotCoA
    rw [h2, h4]
  show transformsA (offsetEmptyRefreshA
      (arrayModRefresh (if x.obIsMesh then nodesModRefreshA x else x))) =
    transformsA (offsetEmptyRefreshA
      (arrayModRefresh (if y.obIsMesh then nodesModRefreshA y else y)))
  refine transformsA_offsetA_congr_free _ _ ?_ ?_ ?_ ?_ ?_ ?_ ?_ ?_ ?_ ?_ ?_
  · simpa using hc
  · simpa using hp
  · simpa using h1
  · simpa using h2
  · simpa using h4
  · simpa using h5
  · simpa using h6
  · simpa using hsv
  · simpa using hpv
  · simpa using h7
  · simpa using h8

/-- Helper: an Array refresh run twice keeps every helper transform of the
first run. -/
theorem transformsA_idem (s : AState) :
    transformsA (refreshA (refreshA s)) = transformsA (refreshA s) := by
  by_cases hc : 1 < s.props.count
  · by_cases hp : s.offsetParentIsOb
    · exact transformsA_refreshA_congr_parented (refreshA s) s hc (by simpa using hp)
        (refreshA_props s) (refreshA_obMx s) (refreshA_orientMx s)
        (refreshA_centerEmpty s) (refreshA_parentFlag s) (refreshA_childrenWorld s)
    · have hp2 : s.offsetParentIsOb = false := by simpa using hp
      exact transformsA_refreshA_congr_free (refreshA s) s hc hp2
        (refreshA_props s) (refreshA_obMx s) (refreshA_orientMx s)
        (refreshA_centerEmpty s) (refreshA_parentFlag s) (refreshA_childrenWorld s)
        (refreshA_basis_nonparented s hp2) (refreshA_parentInv_nonparented s hp2)
  · exact transformsA_refreshA_small (refreshA s) (by simpa using hc)

@[simp]
theorem screwModR_obMx (s : SState) : (screwModRefresh s).obMx = s.obMx := rfl

@[simp]
theorem screwModR_orientMx (s : SState) : (screwModRefresh s).orientMx = s.orientMx := rfl

@[simp]
theorem screwModR_axisEmptyWorld (s : SState) :
    (screwModRefresh s).axisEmptyWorld = s.axisEmptyWorld := rfl

@[simp]
theorem screwModR_axisChildren (s : SState) :
    (screwModRefresh s).axisChildren = s.axisChildren := rfl

@[simp]
theorem nodesS_obMx (s : SState) : (nodesModRefreshS s).obMx = s.obMx := by
  unfold nodesModRefreshS
  dsimp only
  split <;> rfl

@[simp]
theorem nodesS_orientMx (s : SState) : (nodesModRefreshS s).orientMx = s.orientMx := by
  unfold nodesModRefreshS
  dsimp only
  split <;> rfl

@[simp]
theorem nodesS_axisEmptyWorld (s : SState) :
    (nodesModRefreshS s).axisEmptyWorld = s.axisEmptyWorld := by
  unfold nodesModRefreshS
  dsimp only
  split <;> rfl

@[simp]
theorem nodesS_axisChildren (s : SState) :
    (nodesModRefreshS s).axisChildren = s.axisChildren := by
  unfold nodesModRefreshS
  dsimp only
  split <;> rfl

@[simp]
theorem axisE_obMx (s : SState) : (axisEmptyRefreshS s).obMx = s.obMx := rfl

@[simp]
theorem axisE_orientMx (s : SState) : (axisEmptyRefreshS s).orientMx = s.orientMx := rfl

@[simp]
theorem axisE_tra (s : SState) :
    (axisEmptyRefreshS s).axisEmptyWorld.tra = s.axisEmptyWorld.tra := rfl

@[simp]
theorem axisE_childrenWorld (s : SState) :
    ((axisEmptyRefreshS s).axisChildren).map ChildObj.world =
      s.axisChildren.map ChildObj.world := by
  unfold axisEmptyRefreshS
  dsimp only
  rw [childW_map]

@[simp]
theorem refreshS_obMx (s : SState) : (refreshS s).obMx = s.obMx := by
  unfold refreshS
  by_cases h : s.obIsMesh <;> simp [h]

@[simp]
theorem refreshS_orientMx (s : SState) : (refreshS s).orientMx = s.orientMx := by
  unfold refreshS
  by_cases h : s.obIsMesh <;> simp [h]

@[simp]
theorem refreshS_tra (s : SState) :
    (refreshS s).axisEmptyWorld.tra = s.axisEmptyWorld.tra := by
  unfold refreshS
  by_cases h : s.obIsMesh <;> simp [h]

@[simp]
theorem refreshS_childrenWorld (s : SState) :
    ((refreshS s).axisChildren).map ChildObj.world = s.axisChildren.map ChildObj.world := by
  unfold refreshS
  by_cases h : s.obIsMesh <;> simp [h]

/-- Helper: the helper transforms after one Screw refresh, in closed form:
the axis empty keeps its translation and takes the spin orientation. -/
theorem transformsS_refreshS_eq (s : SState) :
    transformsS (refreshS s) =
      ((s.obMx.mul s.orientMx).setTranslation s.axisEmptyWorld.tra) :: s.obMx ::
        s.axisChildren.map ChildObj.world := by
  unfold refreshS
  dsimp only
  unfold axisEmptyRefreshS transformsS pivotCoS
  dsimp only
  by_cases h : s.obIsMesh <;> simp [h, childW_map]

/-- Helper: a Screw refresh run twice keeps every helper transform of the
first run. -/
theorem transformsS_idem (s : SState) :
    transformsS (refreshS (refreshS s)) = transformsS (refreshS s) := by
  rw [transformsS_refreshS_eq, transformsS_refreshS_eq]
  simp

@[simp]
theorem startingR_startingMx (s : DState) : (startingRefreshD s).startingMx = s.startingMx := rfl

@[simp]
theorem startingR_centerMx (s : DState) : (startingRefreshD s).centerMx = s.centerMx := rfl

@[simp]
theorem startingR_orientMx (s : DState) : (startingRefreshD s).orientMx = s.orientMx := rfl

@[simp]
theorem startingR_props (s : DState) : (startingRefreshD s).props = s.props := rfl

@[simp]
theorem startingR_rng (s : DState) : (startingRefreshD s).rng = s.rng := rfl

@[simp]
theorem startingR_rngIdx (s : DState) : (startingRefreshD s).rngIdx = s.rngIdx := rfl

@[simp]
theorem setCountD_startingMx (s : DState) : (setCountD s).startingMx = s.startingMx := rfl

@[simp]
theorem setCountD_centerMx (s : DState) : (setCountD s).centerMx = s.centerMx := rfl

@[simp]
theorem setCountD_orientMx (s : DState) : (setCountD s).orientMx = s.orientMx := rfl

@[simp]
theorem setCountD_props (s : DState) : (setCountD s).props = s.props := rfl

@[simp]
theorem setCountD_rng (s : DState) : (setCountD s).rng = s.rng := rfl

@[simp]
theorem setCountD_rngIdx (s : DState) : (setCountD s).rngIdx = s.rngIdx := rfl

@[simp]
theorem setCountD_duplis_len (s : DState) :
    (setCountD s).duplis.length = s.props.count - 1 := by
  unfold setCountD
  simp

@[simp]
theorem setT_startingMx (s : DState) : (setTransformsD s).startingMx = s.startingMx := by
  unfold setTransformsD
  dsimp only
  split <;> rfl

@[simp]
theorem setT_centerMx (s : DState) : (setTransformsD s).centerMx = s.centerMx := by
  unfold setTransformsD
  dsimp only
  split <;> rfl

@[simp]
theorem setT_orientMx (s : DState) : (setTransformsD s).orientMx = s.orientMx := by
  unfold setTransformsD
  dsimp only
  split <;> rfl

@[simp]
theorem setT_props (s : DState) : (setTransformsD s).props = s.props := by
  unfold setTransformsD
  dsimp only
  split <;> rfl

@[simp]
theorem setT_rng (s : DState) : (setTransformsD s).rng = s.rng := by
  unfold setTransformsD
  dsimp only
  split <;> rfl

@[simp]
theorem setParentD_startingMx (s : DState) : (setParentD s).startingMx = s.startingMx := rfl

@[simp]
theorem setParentD_centerMx (s : DState) : (setParentD s).centerMx = s.centerMx := rfl

@[simp]
theorem setParentD_orientMx (s : DState) : (setParentD s).orientMx = s.orientMx := rfl

@[simp]
theorem setParentD_props (s : DState) : (setParentD s).props = s.props := rfl

@[simp]
theorem setParentD_rng (s : DState) : (setParentD s).rng = s.rng := rfl

@[simp]
theorem setParentD_rngIdx (s : DState) : (setParentD s).rngIdx = s.rngIdx := rfl

@[simp]
theorem setParentD_mxs (s : DState) :
    ((setParentD s).duplis).map DupObj.mx = s.duplis.map DupObj.mx := by
  unfold setParentD
  dsimp only
  rw [List.map_map]
  rfl

@[simp]
theorem refreshD_startingMx (s : DState) : (refreshD s).startingMx = s.startingMx := by
  unfold refreshD
  simp

@[simp]
theorem refreshD_centerMx (s : DState) : (refreshD s).centerMx = s.centerMx := by
  unfold refreshD
  simp

@[simp]
theorem refreshD_orientMx (s : DState) : (refreshD s).orientMx = s.orientMx := by
  unfold refreshD
  simp

@[simp]
theorem refreshD_props (s : DState) : (refreshD s).props = s.props := by
  unfold refreshD
  simp

@[simp]
theorem refreshD_rng (s : DState) : (refreshD s).rng = s.rng := by
  unfold refreshD
  simp

@[simp]
theorem spinVecObjectD_setCountD (s : DState) :
    spinVecObjectD (setCountD s) = spinVecObjectD s := rfl

@[simp]
theorem spinVecObjectD_startingR (s : DState) :
    spinVecObjectD (startingRefreshD s) = spinVecObjectD s := rfl

/-- Helper: the per-sibling loop does not move the pseudo-random cursor
outside the RANDOM duplicates-rotation mode. -/
theorem go_snd_const (s : DState) (svo svw : V3) (step : ℚ)
    (hm : s.props.duplicates_rotation ≠ RotMode.RANDOM) :
    ∀ (l : List DupObj) (i ridx : ℕ),
      (setTransformsGo s svo svw step i ridx l).2 = ridx := by
  intro l
  induction l with
  | nil => intro i ridx; rfl
  | cons o os ih =>
      intro i ridx
      simp only [setTransformsGo]
      rw [if_neg hm]
      exact ih (i + 1) ridx

/-- Helper: the transform step does not move the pseudo-random cursor outside
the RANDOM duplicates-rotation mode. -/
theorem setT_rngIdx (s : DState) (hm : s.props.duplicates_rotation ≠ RotMode.RANDOM) :
    (setTransformsD s).rngIdx = s.rngIdx := by
  unfold setTransformsD
  dsimp only
  split
  · exact go_snd_const s _ _ _ hm s.duplis 1 s.rngIdx
  · rfl

/-- Helper: a full Duplicates refresh does not move the pseudo-random cursor
outside the RANDOM duplicates-rotation mode. -/
theorem refreshD_rngIdx (s : DState) (hm : s.props.duplicates_rotation ≠ RotMode.RANDOM) :
    (refreshD s).rngIdx = s.rngIdx := by
  unfold refreshD
  rw [setParentD_rngIdx, setT_rngIdx _ (by simpa using hm)]
  rfl

/-- Helper: the transform written to a sibling depends on the state only
through the starting object matrix, the center empty matrix and the
properties, never on the sibling object it overwrites. -/
theorem dupTransform_mx_congr (s t : DState) (svo svw : V3) (step : ℚ) (i a : ℕ)
    (o p : DupObj) (hs : s.startingMx = t.startingMx) (hc : s.centerMx = t.centerMx)
    (hp : s.props = t.props) :
    (dupTransform s svo svw step i a o).mx = (dupTransform t svo svw step i a p).mx := by
  unfold dupTransform pivotCoD
  dsimp only
  rw [hs, hc, hp]

/-- Helper: the sibling transforms written by the loop depend on the state
only through the starting matrix, the center matrix, the properties and the
pseudo-random stream, and on the sibling list only through its length. -/
theorem go_mx_congr (s t : DState) (svo svw : V3) (step : ℚ)
    (hs : s.startingMx = t.startingMx) (hc : s.centerMx = t.centerMx)
    (hp : s.props = t.props) (hr : s.rng = t.rng) :
    ∀ (l1 l2 : List DupObj) (i ridx : ℕ), l1.length = l2.length →
      (setTransformsGo s svo svw step i ridx l1).1.map DupObj.mx =
        (setTransformsGo t svo svw step i ridx l2).1.map DupObj.mx := by
  intro l1
  induction l1 with
  | nil =>
      intro l2 i ridx hl
      cases l2 with
      | nil => rfl
      | cons p ps => simp at hl
  | cons o os ih =>
      intro l2 i ridx hl
      cases l2 with
      | nil => simp at hl
      | cons p ps =>
          simp only [setTransformsGo, List.map_cons]
          rw [hp, hr]
          congr 1
          · exact dupTransform_mx_congr s t svo svw step i _ o p hs hc hp
          · exact ih ps (i + 1) _ (by simpa using hl)

/-- Helper: with count above 1, the helper and sibling transforms after a
Duplicates refresh only depend on the refresh inputs. -/
theorem transformsD_congr (x y : DState)
    (h1 : x.startingMx = y.startingMx) (h2 : x.centerMx = y.centerMx)
    (h3 : x.orientMx = y.orientMx) (h4 : x.props = y.props)
    (h5 : x.rng = y.rng) (h6 : x.rngIdx = y.rngIdx) :
    transformsD (refreshD x) = transformsD (refreshD y) := by
  have hsv : spinVecObjectD x = spinVecObjectD y := by
    unfold spinVecObjectD
    rw [h2, h3, h4]
  unfold transformsD
  rw [refreshD_centerMx, refreshD_centerMx, refreshD_startingMx, refreshD_startingMx, h1, h2]
  unfold refreshD
  rw [setParentD_mxs, setParentD_mxs]
  unfold setTransformsD
  dsimp only
  by_cases hcnt : 1 < x.props.count
  · rw [if_pos (by simpa using hcnt), if_pos (by simpa [← h4] using hcnt)]
    have e1 : spinVecObjectD (setCountD (startingRefreshD x)) =
        spinVecObjectD (setCountD (startingRefreshD y)) := by
      simp only [spinVecObjectD_setCountD, spinVecObjectD_startingR]
      exact hsv
    have e2 : (setCountD (startingRefreshD x)).centerMx =
        (setCountD (startingRefreshD y)).centerMx := by
      simp only [setCountD_centerMx, startingR_centerMx]
      exact h2
    have e3 : stepAngleDup (setCountD (startingRefreshD x)).props =
        stepAngleDup (setCountD (startingRefreshD y)).props := by
      simp only [setCountD_props, startingR_props, h4]
    have e4 : (setCountD (startingRefreshD x)).rngIdx =
        (setCountD (startingRefreshD y)).rngIdx := by
      simp only [setCountD_rngIdx, startingR_rngIdx]
      exact h6
    dsimp only
    refine congrArg (List.cons y.centerMx) (congrArg (List.cons y.startingMx) ?_)
    rw [e1, e2, e3, e4]
    apply go_mx_congr
    · simp [h1]
    · simp [h2]
    · simp [h4]
    · simp [h5]
    · simp [h4]
  · rw [if_neg (by simpa using hcnt), if_neg (by simpa [← h4] using hcnt)]
    have hx0 : x.props.count - 1 = 0 := by omega
    have hy0 : y.props.count - 1 = 0 := by rw [← h4]; omega
    unfold setCountD startingRefreshD
    dsimp only
    rw [hx0, hy0]
    simp

/-- Helper: outside the RANDOM duplicates-rotation mode, a Duplicates refresh
run twice keeps every helper and sibling transform of the first run. -/
theorem transformsD_idem (s : DState) (hm : s.props.duplicates_rotation ≠ RotMode.RANDOM) :
    transformsD (refreshD (refreshD s)) = transformsD (refreshD s) :=
  transformsD_congr (refreshD s) s (refreshD_startingMx s) (refreshD_centerMx s)
    (refreshD_orientMx s) (refreshD_props s) (refreshD_rng s) (refreshD_rngIdx s hm)

/-- Helper: the five-decimal rounding of zero. -/
theorem round5_zero : round5 0 = 0 := by
  norm_num [round5, pyRound]

/-- Helper: a Duplicates span that ends at angle zero is not a full circle. -/
theorem fullCircleDup_c2 :
    fullCircleDup ⟨Axis.Z, RotMode.RANDOM, 2, 0, 1, 0, 0⟩ = false := by
  unfold fullCircleDup
  dsimp only
  rw [round5_zero, round5_radians360]
  have h : ((0 : ℚ) == 628319 / 100000) = false := by
    rw [beq_eq_false_iff_ne]
    norm_num
  rw [h, Bool.false_and]

/-- Helper: the step angle of the counterexample properties is zero. -/
theorem stepAngleDup_c2 :
    stepAngleDup ⟨Axis.Z, RotMode.RANDOM, 2, 0, 1, 0, 0⟩ = 0 := by
  unfold stepAngleDup
  rw [fullCircleDup_c2]
  norm_num

/-- Helper: the per-sibling loop on a single sibling. -/
theorem go_singleton (s : DState) (svo svw : V3) (step : ℚ) (i ridx : ℕ) (o : DupObj) :
    setTransformsGo s svo svw step i ridx [o] =
      ([dupTransform s svo svw step i (s.rng ridx % 360) o],
       if s.props.duplicates_rotation = RotMode.RANDOM then ridx + 1 else ridx) := by
  simp only [setTransformsGo]

/-- Helper: at count two, the recreation step leaves a single fresh sibling
copied from the starting object. -/
theorem setCountD_duplis_two (s : DState) (h : s.props.count = 2) :
    (setCountD s).duplis =
      [⟨s.nextId, s.startingMx, s.startingParentInv, s.startingParent⟩] := by
  unfold setCountD
  dsimp only
  rw [h]
  rw [show List.range 1 = [0] from rfl]
  simp

/-- Helper: the sibling transform in RANDOM mode at step angle zero, zero
height offset, unit end scale and identity matrices is exactly the rotation
by the random draw about the spin axis. -/
theorem dupTransform_c2_eval (s : DState) (a : ℕ) (o : DupObj)
    (hsm : s.startingMx = Aff.id) (hcm : s.centerMx = Aff.id)
    (hpr : s.props = ⟨Axis.Z, RotMode.RANDOM, 2, 0, 1, 0, 0⟩) :
    (dupTransform s ⟨0, 0, 1⟩ ⟨0, 0, 1⟩ 0 1 a o).mx =
      Aff.rotation (a : ℝ) ⟨0, 0, 1⟩ := by
  unfold dupTransform pivotCoD
  dsimp only
  rw [hsm, hcm, hpr]
  dsimp only
  norm_num [linspace, Aff.id_tra, V3.smul_zero_eq, V3.add_zero_right,
    Aff.setTranslation_id_zero, Aff.translation_zero, Aff.rotation_zero,
    Aff.id_mul_eq, Aff.mul_id_eq, Aff.rotation_tra, V3.neg_zero_eq,
    Aff.toScale_id, Aff.diagonal4_one]

/-- Helper: one Duplicates refresh of a RANDOM-mode construct on identity
transforms with count two, zero end angle and unit end scale rotates the
single recreated sibling by the pseudo-random draw at the current cursor. -/
theorem transformsD_refreshD_c2_eval (s : DState)
    (hsm : s.startingMx = Aff.id) (hcm : s.centerMx = Aff.id) (hom : s.orientMx = Aff.id)
    (hpr : s.props = ⟨Axis.Z, RotMode.RANDOM, 2, 0, 1, 0, 0⟩)
    (hrng : s.rng = fun n => n) :
    transformsD (refreshD s) =
      [Aff.id, Aff.id, Aff.rotation ((s.rngIdx % 360 : ℕ) : ℝ) ⟨0, 0, 1⟩] := by
  have hsvo : spinVecObjectD s = ⟨0, 0, 1⟩ := by
    unfold spinVecObjectD
    rw [hcm, hom, hpr]
    dsimp only
    rw [Aff.mul_id_eq, V3.rowMul_id]
    rfl
  have hcnt : 1 < (setCountD (startingRefreshD s)).props.count := by
    rw [setCountD_props, startingR_props, hpr]
    decide
  unfold transformsD
  rw [refreshD_centerMx, refreshD_startingMx, hsm, hcm]
  unfold refreshD
  rw [setParentD_mxs]
  unfold setTransformsD
  dsimp only
  rw [if_pos hcnt]
  dsimp only
  rw [setCountD_duplis_two (startingRefreshD s) (by rw [startingR_props, hpr])]
  rw [go_singleton]
  simp only [List.map_cons, List.map_nil, spinVecObjectD_setCountD, spinVecObjectD_startingR,
    hsvo, setCountD_centerMx, startingR_centerMx, hcm, Aff.inverse_id, V3.rowMul_id,
    setCountD_props, startingR_props, hpr, stepAngleDup_c2, setCountD_rng, startingR_rng,
    hrng, setCountD_rngIdx, startingR_rngIdx]
  rw [dupTransform_c2_eval _ _ _ (by simp [hsm]) (by simp [hcm]) (by simp [hpr])]

/-- Helper: the cursor of the pseudo-random stream advances by one draw
during the counterexample refresh. -/
theorem refreshD_randomEx_rngIdx : (refreshD dstateRandomEx).rngIdx = 1 := by
  unfold refreshD
  rw [setParentD_rngIdx]
  unfold setTransformsD
  dsimp only
  rw [if_pos (show 1 <
    (setCountD (startingRefreshD dstateRandomEx)).props.count by decide)]
  dsimp only
  rw [setCountD_duplis_two (startingRefreshD dstateRandomEx) rfl]
  rw [go_singleton]
  rw [if_pos (show (setCountD (startingRefreshD dstateRandomEx)).props.duplicates_rotation =
    RotMode.RANDOM from rfl)]
  rfl

/-- Helper: the first refresh of the counterexample state draws zero and
leaves every transform at the identity. -/
theorem c2_first_eval :
    transformsD (refreshD dstateRandomEx) = [Aff.id, Aff.id, Aff.id] := by
  rw [transformsD_refreshD_c2_eval dstateRandomEx rfl rfl rfl rfl rfl]
  rw [show dstateRandomEx.rngIdx = 0 from rfl]
  norm_num [Aff.rotation_zero]

/-- Helper: the second refresh of the counterexample state draws one and
rotates the recreated sibling by one radian. -/
theorem c2_second_eval :
    transformsD (refreshD (refreshD dstateRandomEx)) =
      [Aff.id, Aff.id, Aff.rotation 1 ⟨0, 0, 1⟩] := by
  rw [transformsD_refreshD_c2_eval (refreshD dstateRandomEx)
    (by rw [refreshD_startingMx]; rfl) (by rw [refreshD_centerMx]; rfl)
    (by rw [refreshD_orientMx]; rfl) (by rw [refreshD_props]; rfl)
    (by rw [refreshD_rng]; rfl), refreshD_randomEx_rngIdx]
  norm_num

/-- Helper: a one-radian rotation about the Z axis is not the identity
transform, because its leading entry is the cosine of one. -/
theorem rotation_one_ne_id : Aff.rotation 1 ⟨0, 0, 1⟩ ≠ Aff.id := by
  intro h
  have h00 : (Aff.rotation 1 ⟨0, 0, 1⟩).lin.m00 = Real.cos 1 := by
    unfold Aff.rotation
    dsimp only
    norm_num [V3.normalized, V3.length, V3.lengthSq, V3.dot, V3.smul]
  have h1 : Real.cos 1 = 1 := by
    rw [← h00, h]
    rfl
  have h2 := Real.cos_one_le
  linarith

/-- C2 counterexample: a Duplicates construct in the RANDOM
duplicates-rotation mode is not refresh-idempotent: the counterexample state
(count two, identity transforms, the identity pseudo-random stream) has all
identity transforms after one refresh but a one-radian sibling rotation
after a second refresh, because each refresh redraws the random angle of
every sibling from the advancing stream. -/
theorem C2_refresh_counterexample :
    ¬ ∀ sd : DState,
      transformsD (refreshD (refreshD sd)) = transformsD (refreshD sd) := by
  intro hall
  have h := hall dstateRandomEx
  rw [c2_first_eval, c2_second_eval] at h
  have h3 : Aff.rotation 1 ⟨0, 0, 1⟩ = Aff.id := by
    simpa using h
  exact rotation_one_ne_id h3

/-- C2 (amended): refresh run twice with no modification in between yields
the same helper and sibling transforms as a single refresh for Array
constructs (every count), Screw constructs (every count) and Duplicates
constructs in the FOLLOW and KEEP duplicates-rotation modes; the RANDOM mode
is excluded because it redraws a pseudo-random angle per sibling on every
refresh. -/
theorem C2_refresh_idempotent (sa : AState) (ss : SState) (sd : DState)
    (hd : sd.props.duplicates_rotation ≠ RotMode.RANDOM) :
    transformsA (refreshA (refreshA sa)) = transformsA (refreshA sa) ∧
    transformsS (refreshS (refreshS ss)) = transformsS (refreshS ss) ∧
    transformsD (refreshD (refreshD sd)) = transformsD (refreshD sd) :=
  ⟨transformsA_idem sa, transformsS_idem ss, transformsD_idem sd hd⟩

/-- C2 witness: the idempotence theorem applied to the concrete Array, Screw
and FOLLOW-mode Duplicates example constructs. -/
theorem C2_refresh_idempotent_witness :
    dstateFollowEx.props.duplicates_rotation ≠ RotMode.RANDOM ∧
    (transformsA (refreshA (refreshA astateEx)) = transformsA (refreshA astateEx) ∧
     transformsS (refreshS (refreshS sstateEx)) = transformsS (refreshS sstateEx) ∧
     transformsD (refreshD (refreshD dstateFollowEx)) = transformsD (refreshD dstateFollowEx)) :=
  ⟨by decide, C2_refresh_idempotent astateEx sstateEx dstateFollowEx (by decide)⟩

/-- C8 witness: the fallback theorem applied to the concrete Array and Screw
constructs whose geometry center sits exactly on the spin axis. -/
theorem C8_displace_fallback_witness :
    (astateC8Ex.props.radius_offset ≠ 0 ∧
     ((astateC8Ex.obMx.setTranslation (pivotCoA astateC8Ex)).inverse.apply
       astateC8Ex.dataCenterCoWorld).lengthSq < 1/1000 ∧
     sstateC8Ex.props.radius_offset ≠ 0 ∧
     ((sstateC8Ex.obMx.setTranslation (pivotCoS sstateC8Ex)).inverse.apply
       sstateC8Ex.meshCenterCoWorld).lengthSq < 1/1000) ∧
    (arrayDisplaceOffsetVec astateC8Ex =
      (((⟨1, 1, 1⟩ : V3).sub
        ((⟨1, 1, 1⟩ : V3).project (spinVecObjectA astateC8Ex))).normalized).smul
        ((astateC8Ex.props.radius_offset : ℝ)) ∧
     screwDisplaceOffsetVec sstateC8Ex =
      (((⟨1, 1, 1⟩ : V3).sub
        ((⟨1, 1, 1⟩ : V3).project (spinVecObjectS sstateC8Ex))).normalized).smul
        ((sstateC8Ex.props.radius_offset : ℝ))) := by
  have ha0 : astateC8Ex.props.radius_offset ≠ 0 := by norm_num [astateC8Ex]
  have hanz : ((astateC8Ex.obMx.setTranslation (pivotCoA astateC8Ex)).inverse.apply
      astateC8Ex.dataCenterCoWorld).lengthSq < 1/1000 := by
    rw [show astateC8Ex.obMx.setTranslation (pivotCoA astateC8Ex) = Aff.id from rfl,
      Aff.inverse_id, show astateC8Ex.dataCenterCoWorld = V3.zero from rfl, Aff.apply_id]
    norm_num [V3.lengthSq, V3.dot, V3.zero]
  have hs0 : sstateC8Ex.props.radius_offset ≠ 0 := by norm_num [sstateC8Ex]
  have hsnz : ((sstateC8Ex.obMx.setTranslation (pivotCoS sstateC8Ex)).inverse.apply
      sstateC8Ex.meshCenterCoWorld).lengthSq < 1/1000 := by
    rw [show sstateC8Ex.obMx.setTranslation (pivotCoS sstateC8Ex) = Aff.id from rfl,
      Aff.inverse_id, show sstateC8Ex.meshCenterCoWorld = V3.zero from rfl, Aff.apply_id]
    norm_num [V3.lengthSq, V3.dot, V3.zero]
  exact ⟨⟨ha0, hanz, hs0, hsnz⟩, C8_displace_fallback astateC8Ex sstateC8Ex ha0 hanz hs0 hsnz⟩

/-- C9 witness: a new array modifier appended above a mirror (no mirror
object) and an older radial array lands immediately after the older array. -/
theorem C9_sort_array_mod_witness :
    sortArrayMod
      ([⟨"Mirror", ModType.MIRROR, true⟩, ⟨"RadialArray", ModType.ARRAY, false⟩,
        ⟨"Bevel", ModType.OTHER, false⟩] ++ [⟨"RadialArray.001", ModType.ARRAY, false⟩])
      ("RadialArray.001") =
      [⟨"Mirror", ModType.MIRROR, true⟩, ⟨"RadialArray", ModType.ARRAY, false⟩,
       ⟨"RadialArray.001", ModType.ARRAY, false⟩, ⟨"Bevel", ModType.OTHER, false⟩] := by
  have h := (C9_sort_array_mod
    [⟨"Mirror", ModType.MIRROR, true⟩, ⟨"RadialArray", ModType.ARRAY, false⟩,
     ⟨"Bevel", ModType.OTHER, false⟩]
    ⟨"RadialArray.001", ModType.ARRAY, false⟩ (by decide) (by decide)).2.1
    [⟨"Mirror", ModType.MIRROR, true⟩] ⟨"RadialArray", ModType.ARRAY, false⟩
    [⟨"Bevel", ModType.OTHER, false⟩] (by decide) (by decide) (by decide)
  simpa using h

/-! ## C3: modal session cancellation -/

/-- Helper: ensuring a center empty keeps the construct name. -/
theorem fillEmpty_name (o : V3Q) (a : ACRecord) : (fillEmpty o a).name = a.name := by
  unfold fillEmpty
  split <;> rfl

/-- Helper: ensuring a center empty keeps the construct attributes. -/
theorem fillEmpty_attrs (o : V3Q) (a : ACRecord) : attrsOf (fillEmpty o a) = attrsOf a := by
  unfold fillEmpty attrsOf
  split <;> rfl

/-- Helper: ensuring a center empty at the current origin keeps the pivot
coordinate of the construct, whatever the origin becomes afterwards. -/
theorem fillEmpty_getD (o x : V3Q) (a : ACRecord) :
    (fillEmpty o a).centerEmptyCo.getD x = a.centerEmptyCo.getD o := by
  unfold fillEmpty
  split
  · rename_i h
    rw [h]
    rfl
  · rename_i h
    cases hc : a.centerEmptyCo with
    | none => exact absurd hc h
    | some v => rfl

/-- Helper: mapping over all but the last element of a concatenation. -/
theorem mapExceptLast_concat (f : ACRecord → ACRecord) :
    ∀ (L : List ACRecord) (t : ACRecord), mapExceptLast f (L ++ [t]) = L.map f ++ [t] := by
  intro L
  induction L with
  | nil => intro t; rfl
  | cons a L2 ih =>
      intro t
      cases L2 with
      | nil => rfl
      | cons b L3 =>
          show f a :: mapExceptLast f ((b :: L3) ++ [t]) = _
          rw [ih t]
          rfl

/-- Helper: mapping over only the last element of a concatenation. -/
theorem mapLast_concat (f : ACRecord → ACRecord) :
    ∀ (L : List ACRecord) (t : ACRecord), mapLast f (L ++ [t]) = L ++ [f t] := by
  intro L
  induction L with
  | nil => intro t; rfl
  | cons a L2 ih =>
      intro t
      cases L2 with
      | nil => rfl
      | cons b L3 =>
          show a :: mapLast f ((b :: L3) ++ [t]) = _
          rw [ih t]
          rfl

/-- Helper: searching by name through a map with a name-preserving function. -/
theorem find_name_map (m : String) (f : ACRecord → ACRecord)
    (hf : ∀ a, (f a).name = a.name) (L : List ACRecord) :
    (L.map f).find? (fun a => decide (a.name = m)) =
      (L.find? (fun a => decide (a.name = m))).map f := by
  rw [List.find?_map]
  have h : ((fun a : ACRecord => decide (a.name = m)) ∘ f) =
      (fun a : ACRecord => decide (a.name = m)) := by
    funext a
    simp [hf]
  rw [h]

/-- Helper: searching by one name through a filter dropping a different name. -/
theorem find_name_filter (m k : String) (hmk : m ≠ k) (L : List ACRecord) :
    (L.filter (fun a => decide (a.name ≠ k))).find? (fun a => decide (a.name = m)) =
      L.find? (fun a => decide (a.name = m)) := by
  induction L with
  | nil => rfl
  | cons a L2 ih =>
      by_cases hk : a.name = k
      · rw [List.filter_cons_of_neg (by simp [hk]),
          List.find?_cons_of_neg _ (by simp [hk]; exact Ne.symm hmk), ih]
      · rw [List.filter_cons_of_pos (by simp [hk])]
        by_cases hm : a.name = m
        · rw [List.find?_cons_of_pos _ (by simp [hm]),
            List.find?_cons_of_pos _ (by simp [hm])]
        · rw [List.find?_cons_of_neg _ (by simp [hm]),
            List.find?_cons_of_neg _ (by simp [hm]), ih]

/-- Helper: a construct record is found exactly when its name is present. -/
theorem findArr_isSome_iff (sc : AScene) (m : String) :
    (findArr sc m).isSome ↔ m ∈ namesOf sc := by
  unfold findArr namesOf
  rw [List.find?_isSome]
  constructor
  · rintro ⟨a, ha, hp⟩
    exact List.mem_map.mpr ⟨a, ha, by simpa using hp⟩
  · intro h
    obtain ⟨a, ha, rfl⟩ := List.mem_map.mp h
    exact ⟨a, ha, by simp⟩

/-- Helper: no construct record is found exactly when the name is absent. -/
theorem findArr_none_iff (sc : AScene) (m : String) :
    findArr sc m = none ↔ m ∉ namesOf sc := by
  constructor
  · intro h hmem
    have hs := (findArr_isSome_iff sc m).mpr hmem
    rw [h] at hs
    simp at hs
  · intro h
    cases hf : findArr sc m with
    | none => rfl
    | some a => exact absurd ((findArr_isSome_iff sc m).mp (by rw [hf]; rfl)) h

/-- Helper: names after a map with a name-preserving function. -/
theorem names_map_of (f : ACRecord → ACRecord) (hf : ∀ a, (f a).name = a.name)
    (L : List ACRecord) : (L.map f).map ACRecord.name = L.map ACRecord.name := by
  rw [List.map_map]
  congr 1
  funext a
  exact hf a

/-- Helper: attribute lookup through the mapped prefix and rewritten last
element of the ensure-empties-then-strip-top rewrite, for attribute
preserving record functions. -/
theorem find_attrs_concat (m : String) (f g : ACRecord → ACRecord)
    (hfn : ∀ a, (f a).name = a.name) (hgn : ∀ a, (g a).name = a.name)
    (hfa : ∀ a, attrsOf (f a) = attrsOf a) (hga : ∀ a, attrsOf (g a) = attrsOf a)
    (L : List ACRecord) (t : ACRecord) :
    ((L.map f ++ [g t]).find? (fun a => decide (a.name = m))).map attrsOf =
      ((L ++ [t]).find? (fun a => decide (a.name = m))).map attrsOf := by
  rw [List.find?_append, List.find?_append, find_name_map m f hfn]
  cases hL : L.find? (fun a => decide (a.name = m)) with
  | some a => simp [hfa]
  | none =>
      rw [List.find?_singleton, List.find?_singleton]
      by_cases hp : t.name = m
      · rw [if_pos (by simp [hgn, hp]), if_pos (by simp [hp])]
        simp [hga]
      · rw [if_neg (by simp [hgn, hp]), if_neg (by simp [hp])]
        simp

/-- Helper: pivot-coordinate lookup through the same rewrite: the prefix is
ensured at the old origin, the last element is covered by an explicit
hypothesis when it carries the searched name. -/
theorem find_pivot_concat (m : String) (f g : ACRecord → ACRecord) (o o2 : V3Q)
    (t : ACRecord) (hfn : ∀ a, (f a).name = a.name) (hgn : ∀ a, (g a).name = a.name)
    (hf : ∀ a x, (f a).centerEmptyCo.getD x = a.centerEmptyCo.getD o)
    (hgt : t.name = m → (g t).centerEmptyCo.getD o2 = t.centerEmptyCo.getD o)
    (L : List ACRecord) :
    ((L.map f ++ [g t]).find? (fun a => decide (a.name = m))).map
        (fun a => a.centerEmptyCo.getD o2) =
      ((L ++ [t]).find? (fun a => decide (a.name = m))).map
        (fun a => a.centerEmptyCo.getD o) := by
  rw [List.find?_append, List.find?_append, find_name_map m f hfn]
  cases hL : L.find? (fun a => decide (a.name = m)) with
  | some a => simp [hf]
  | none =>
      rw [List.find?_singleton, List.find?_singleton]
      by_cases hp : t.name = m
      · rw [if_pos (by simp [hgn, hp]), if_pos (by simp [hp])]
        simp [hgt hp]
      · rw [if_neg (by simp [hgn, hp]), if_neg (by simp [hp])]
        simp

/-- Helper: attribute lookup through a name- and attribute-preserving map. -/
theorem find_attrs_map (m : String) (f : ACRecord → ACRecord)
    (hfn : ∀ a, (f a).name = a.name) (hfa : ∀ a, attrsOf (f a) = attrsOf a)
    (L : List ACRecord) :
    ((L.map f).find? (fun a => decide (a.name = m))).map attrsOf =
      (L.find? (fun a => decide (a.name = m))).map attrsOf := by
  rw [find_name_map m f hfn]
  cases L.find? (fun a => decide (a.name = m)) with
  | none => rfl
  | some a => simp [hfa]

/-- Helper: pivot lookup through a map that preserves the pivot coordinate of
any record carrying the searched name. -/
theorem find_pivot_map (m : String) (f : ACRecord → ACRecord) (o o2 : V3Q)
    (hfn : ∀ a, (f a).name = a.name)
    (hf : ∀ a, a.name = m → (f a).centerEmptyCo.getD o2 = a.centerEmptyCo.getD o)
    (L : List ACRecord) :
    ((L.map f).find? (fun a => decide (a.name = m))).map
        (fun a => a.centerEmptyCo.getD o2) =
      (L.find? (fun a => decide (a.name = m))).map (fun a => a.centerEmptyCo.getD o) := by
  rw [find_name_map m f hfn]
  cases hL : L.find? (fun a => decide (a.name = m)) with
  | none => rfl
  | some a =>
      have ha : a.name = m := by
        have := List.find?_some hL
        simpa using this
      simp [hf a ha]

/-- Helper: a pivot write keeps the scene construct names. -/
theorem setPivot_names (sc : AScene) (n : String) (co : V3Q) :
    namesOf (setPivotVecQ sc n co) = namesOf sc := by
  unfold setPivotVecQ
  cases hl : sc.arrays.getLast? with
  | none => rfl
  | some top =>
      obtain ⟨L, hLt⟩ := List.getLast?_eq_some_iff.mp hl
      dsimp only
      by_cases ht : top.name = n
      · rw [if_pos ht]
        unfold namesOf
        dsimp only
        rw [hLt, mapExceptLast_concat, mapLast_concat, List.map_append, List.map_append,
          names_map_of _ (fillEmpty_name sc.originCo)]
        rfl
      · rw [if_neg ht]
        unfold namesOf
        dsimp only
        exact names_map_of _ (fun a => by split <;> rfl) sc.arrays

/-- Helper: a pivot write keeps the attributes of every construct. -/
theorem setPivot_attrs (sc : AScene) (n : String) (co : V3Q) (m : String) :
    attrsObs (setPivotVecQ sc n co) m = attrsObs sc m := by
  unfold setPivotVecQ attrsObs findArr
  cases hl : sc.arrays.getLast? with
  | none => rfl
  | some top =>
      obtain ⟨L, hLt⟩ := List.getLast?_eq_some_iff.mp hl
      dsimp only
      by_cases ht : top.name = n
      · rw [if_pos ht]
        dsimp only
        rw [hLt, mapExceptLast_concat, mapLast_concat]
        exact find_attrs_concat m (fillEmpty sc.originCo)
          (fun a => { a with centerEmptyCo := none }) (fillEmpty_name sc.originCo)
          (fun a => rfl) (fillEmpty_attrs sc.originCo) (fun a => rfl) L top
      · rw [if_neg ht]
        dsimp only
        exact find_attrs_map m _ (fun a => by split <;> rfl)
          (fun a => by split <;> rfl) sc.arrays

/-- Helper: a pivot write for one construct keeps the pivot coordinate of
every other construct. -/
theorem setPivot_pivot_ne (sc : AScene) (n : String) (co : V3Q) (m : String)
    (hmn : m ≠ n) :
    pivotCoOfQ (setPivotVecQ sc n co) m = pivotCoOfQ sc m := by
  unfold setPivotVecQ pivotCoOfQ findArr
  cases hl : sc.arrays.getLast? with
  | none =>
      have harr := List.getLast?_eq_none_iff.mp hl
      dsimp only
      rw [harr]
      rfl
  | some top =>
      obtain ⟨L, hLt⟩ := List.getLast?_eq_some_iff.mp hl
      dsimp only
      by_cases ht : top.name = n
      · rw [if_pos ht]
        dsimp only
        rw [hLt, mapExceptLast_concat, mapLast_concat]
        exact find_pivot_concat m (fillEmpty sc.originCo)
          (fun a => { a with centerEmptyCo := none }) sc.originCo co top
          (fillEmpty_name sc.originCo) (fun a => rfl)
          (fun a x => fillEmpty_getD sc.originCo x a)
          (fun hm => absurd (hm.symm.trans ht) hmn) L
      · rw [if_neg ht]
        dsimp only
        exact find_pivot_map m _ sc.originCo sc.originCo
          (fun a => by split <;> rfl)
          (fun a ha => by
            rw [if_neg (fun h => hmn (ha.symm.trans h))]) sc.arrays

/-- Helper: a pivot write for a present construct name pins its pivot at the
written coordinate. -/
theorem setPivot_pivot_eq (sc : AScene) (n : String) (co : V3Q)
    (hnodup : (namesOf sc).Nodup) (hex : (findArr sc n).isSome) :
    pivotCoOfQ (setPivotVecQ sc n co) n = some co := by
  unfold setPivotVecQ pivotCoOfQ findArr
  cases hl : sc.arrays.getLast? with
  | none =>
      have harr := List.getLast?_eq_none_iff.mp hl
      unfold findArr at hex
      rw [harr] at hex
      simp at hex
  | some top =>
      obtain ⟨L, hLt⟩ := List.getLast?_eq_some_iff.mp hl
      dsimp only
      by_cases ht : top.name = n
      · rw [if_pos ht]
        dsimp only
        rw [hLt, mapExceptLast_concat, mapLast_concat]
        have hnd : (namesOf sc).Nodup := hnodup
        rw [namesOf, hLt, List.map_append] at hnd
        have hdis := (List.nodup_append.mp hnd).2.2
        have hLn : L.find? (fun a => decide (a.name = n)) = none := by
          rw [List.find?_eq_none]
          intro x hx
          simp only [decide_eq_true_eq]
          intro hxn
          exact hdis (List.mem_map.mpr ⟨x, hx, hxn⟩) (by simp [ht])
        rw [List.find?_append, find_name_map n _ (fillEmpty_name sc.originCo), hLn]
        rw [List.find?_singleton, if_pos (by simp [ht])]
        rfl
      · rw [if_neg ht]
        dsimp only
        rw [find_name_map n _ (fun a => by split <;> rfl)]
        unfold findArr at hex
        cases ha : sc.arrays.find? (fun a => decide (a.name = n)) with
        | none =>
            rw [ha] at hex
            simp at hex
        | some a =>
            have han : a.name = n := by
              have := List.find?_some ha
              simpa using this
            simp [han]

/-- Helper: a construct removal filters its name out of the scene names. -/
theorem removeArray_names (sc : AScene) (k : String) :
    namesOf (removeArrayQ sc k) = (namesOf sc).filter (fun x => decide (x ≠ k)) := by
  have hfil : (sc.arrays.filter (fun a => decide (a.name ≠ k))).map ACRecord.name =
      (sc.arrays.map ACRecord.name).filter (fun x => decide (x ≠ k)) := by
    rw [List.filter_map]
    rfl
  unfold removeArrayQ
  dsimp only
  cases hl : (sc.arrays.filter (fun a => decide (a.name ≠ k))).getLast? with
  | none =>
      have harr := List.getLast?_eq_none_iff.mp hl
      unfold namesOf
      dsimp only
      rw [← hfil, harr]
  | some top =>
      obtain ⟨L, hLt⟩ := List.getLast?_eq_some_iff.mp hl
      dsimp only
      cases hce : top.centerEmptyCo with
      | some c =>
          dsimp only
          unfold namesOf
          dsimp only
          rw [hLt, mapExceptLast_concat, mapLast_concat, List.map_append,
            names_map_of _ (fillEmpty_name sc.originCo), ← hfil, hLt, List.map_append]
          rfl
      | none =>
          dsimp only
          unfold namesOf
          dsimp only
          exact hfil

/-- Helper: removing one construct keeps the attributes of the others. -/
theorem removeArray_attrs (sc : AScene) (k m : String) (hmk : m ≠ k) :
    attrsObs (removeArrayQ sc k) m = attrsObs sc m := by
  unfold removeArrayQ attrsObs findArr
  dsimp only
  cases hl : (sc.arrays.filter (fun a => decide (a.name ≠ k))).getLast? with
  | none =>
      have harr := List.getLast?_eq_none_iff.mp hl
      have hnone : sc.arrays.find? (fun a => decide (a.name = m)) = none := by
        rw [List.find?_eq_none]
        intro x hx
        simp only [decide_eq_true_eq]
        intro hxm
        have hxk : x.name = k := by
          by_contra hxk
          have hmem : x ∈ sc.arrays.filter (fun a => decide (a.name ≠ k)) :=
            List.mem_filter.mpr ⟨hx, by simpa using hxk⟩
          rw [harr] at hmem
          simp at hmem
        exact hmk (hxm.symm.trans hxk)
      dsimp only
      rw [hnone]
      rfl
  | some top =>
      obtain ⟨L, hLt⟩ := List.getLast?_eq_some_iff.mp hl
      dsimp only
      cases hce : top.centerEmptyCo with
      | some c =>
          dsimp only
          rw [hLt, mapExceptLast_concat, mapLast_concat]
          rw [find_attrs_concat m (fillEmpty sc.originCo)
            (fun a => { a with centerEmptyCo := none }) (fillEmpty_name sc.originCo)
            (fun a => rfl) (fillEmpty_attrs sc.originCo) (fun a => rfl) L top, ← hLt,
            find_name_filter m k hmk]
      | none =>
          dsimp only
          rw [find_name_filter m k hmk]

/-- Helper: removing one construct keeps the pivot coordinates of the
others. -/
theorem removeArray_pivot (sc : AScene) (k m : String) (hmk : m ≠ k) :
    pivotCoOfQ (removeArrayQ sc k) m = pivotCoOfQ sc m := by
  unfold removeArrayQ pivotCoOfQ findArr
  dsimp only
  cases hl : (sc.arrays.filter (fun a => decide (a.name ≠ k))).getLast? with
  | none =>
      have harr := List.getLast?_eq_none_iff.mp hl
      have hnone : sc.arrays.find? (fun a => decide (a.name = m)) = none := by
        rw [List.find?_eq_none]
        intro x hx
        simp only [decide_eq_true_eq]
        intro hxm
        have hxk : x.name = k := by
          by_contra hxk
          have hmem : x ∈ sc.arrays.filter (fun a => decide (a.name ≠ k)) :=
            List.mem_filter.mpr ⟨hx, by simpa using hxk⟩
          rw [harr] at hmem
          simp at hmem
        exact hmk (hxm.symm.trans hxk)
      dsimp only
      rw [hnone]
      rfl
  | some top =>
      obtain ⟨L, hLt⟩ := List.getLast?_eq_some_iff.mp hl
      dsimp only
      cases hce : top.centerEmptyCo with
      | some c =>
          dsimp only
          rw [hLt, mapExceptLast_concat, mapLast_concat]
          rw [find_pivot_concat m (fillEmpty sc.originCo)
            (fun a => { a with centerEmptyCo := none }) sc.originCo c top
            (fillEmpty_name sc.originCo) (fun a => rfl)
            (fun a x => fillEmpty_getD sc.originCo x a)
            (fun _ => by rw [hce]; rfl) L, ← hLt, find_name_filter m k hmk]
      | none =>
          dsimp only
          rw [find_name_filter m k hmk]

/-- Helper: a construct removal deletes every record carrying the name. -/
theorem removeArray_kills (sc : AScene) (k : String) :
    findArr (removeArrayQ sc k) k = none := by
  rw [findArr_none_iff, removeArray_names]
  intro hmem
  have := List.of_mem_filter hmem
  simp at this

/-- Helper: a construct removal never resurrects an absent name. -/
theorem removeArray_absent (sc : AScene) (k j : String) (h : findArr sc j = none) :
    findArr (removeArrayQ sc k) j = none := by
  rw [findArr_none_iff, removeArray_names]
  rw [findArr_none_iff] at h
  intro hmem
  exact h (List.mem_of_mem_filter hmem)

/-- Helper: the attribute restoration keeps the scene construct names. -/
theorem restoreAttrs_names (sess : ASession) (sc : AScene) :
    namesOf (restoreAttrsQ sess sc) = namesOf sc := by
  unfold restoreAttrsQ namesOf
  dsimp only
  exact names_map_of _ (fun a => by split <;> rfl) sc.arrays

/-- Helper: the attribute restoration keeps every pivot coordinate. -/
theorem restoreAttrs_pivot (sess : ASession) (sc : AScene) (m : String) :
    pivotCoOfQ (restoreAttrsQ sess sc) m = pivotCoOfQ sc m := by
  unfold restoreAttrsQ pivotCoOfQ findArr
  dsimp only
  exact find_pivot_map m _ sc.originCo sc.originCo (fun a => by split <;> rfl)
    (fun a ha => by split <;> rfl) sc.arrays

/-- Helper: the attribute restoration writes the snapshot attributes into
every modified construct that was not created by the session. -/
theorem restoreAttrs_attrs_set (sess : ASession) (sc : AScene) (m : String)
    (hm : m ∈ sess.modified) (hnew : m ∉ sess.newNames)
    (hex : (findArr sc m).isSome) :
    attrsObs (restoreAttrsQ sess sc) m =
      some ((sess.snap m).spin_orientation, (sess.snap m).orientMx, (sess.snap m).props) := by
  unfold restoreAttrsQ attrsObs findArr
  dsimp only
  rw [find_name_map m _ (fun a => by split <;> rfl)]
  unfold findArr at hex
  cases ha : sc.arrays.find? (fun a => decide (a.name = m)) with
  | none =>
      rw [ha] at hex
      simp at hex
  | some a =>
      have han : a.name = m := by
        have := List.find?_some ha
        simpa using this
      have hcond : a.name ∈ sess.modified ∧ a.name ∉ sess.newNames := by
        rw [han]
        exact ⟨hm, hnew⟩
      simp [attrsOf, han, hm, hnew]

/-- Helper: the origin restoration keeps every construct record. -/
theorem restoreOb_find (sess : ASession) (sc : AScene) (m : String) :
    findArr (restoreObOriginQ sess sc) m = findArr sc m := by
  unfold restoreObOriginQ findArr
  split <;> rfl

/-- Helper: the origin restoration keeps the attributes of every construct. -/
theorem restoreOb_attrs (sess : ASession) (sc : AScene) (m : String) :
    attrsObs (restoreObOriginQ sess sc) m = attrsObs sc m := by
  unfold attrsObs
  rw [restoreOb_find]

/-- Helper: the origin restoration keeps every pivot coordinate: it only runs
on a scene without constructs, where no pivot can be observed. -/
theorem restoreOb_pivot (sess : ASession) (sc : AScene) (m : String) :
    pivotCoOfQ (restoreObOriginQ sess sc) m = pivotCoOfQ sc m := by
  unfold restoreObOriginQ pivotCoOfQ findArr
  split
  · rename_i h
    dsimp only
    rw [h]
    rfl
  · rfl

/-- Helper: the pivot restoration fold keeps the scene construct names. -/
theorem pivots_fold_names (sess : ASession) :
    ∀ (ns : List String) (sc : AScene),
      namesOf (ns.foldl (fun acc n =>
        if n ∈ sess.lastSet then setPivotVecQ acc n ((sess.snap n).pivotCo) else acc) sc) =
        namesOf sc := by
  intro ns
  induction ns with
  | nil => intro sc; rfl
  | cons n rest ih =>
      intro sc
      rw [List.foldl_cons, ih]
      by_cases hn : n ∈ sess.lastSet
      · rw [if_pos hn, setPivot_names]
      · rw [if_neg hn]

/-- Helper: the pivot restoration fold keeps every construct attribute. -/
theorem pivots_fold_attrs (sess : ASession) (m : String) :
    ∀ (ns : List String) (sc : AScene),
      attrsObs (ns.foldl (fun acc n =>
        if n ∈ sess.lastSet then setPivotVecQ acc n ((sess.snap n).pivotCo) else acc) sc) m =
        attrsObs sc m := by
  intro ns
  induction ns with
  | nil => intro sc; rfl
  | cons n rest ih =>
      intro sc
      rw [List.foldl_cons, ih]
      by_cases hn : n ∈ sess.lastSet
      · rw [if_pos hn, setPivot_attrs]
      · rw [if_neg hn]

/-- Helper: the pivot restoration fold keeps the pivot coordinate of every
construct it never writes. -/
theorem pivots_fold_pivot_preserve (sess : ASession) (m : String) :
    ∀ (ns : List String) (sc : AScene), m ∉ ns →
      pivotCoOfQ (ns.foldl (fun acc n =>
        if n ∈ sess.lastSet then setPivotVecQ acc n ((sess.snap n).pivotCo) else acc) sc) m =
        pivotCoOfQ sc m := by
  intro ns
  induction ns with
  | nil => intro sc _; rfl
  | cons n rest ih =>
      intro sc hm
      have hmr : m ∉ rest := fun h => hm (List.mem_cons_of_mem n h)
      have hmn : m ≠ n := fun h => hm (h ▸ List.mem_cons_self n rest)
      rw [List.foldl_cons, ih _ hmr]
      by_cases hn : n ∈ sess.lastSet
      · rw [if_pos hn, setPivot_pivot_ne _ _ _ _ hmn]
      · rw [if_neg hn]

/-- Helper: the pivot restoration fold pins every written construct at its
snapshot pivot coordinate. -/
theorem pivots_fold_pivot_set (sess : ASession) (m : String) :
    ∀ (ns : List String) (sc : AScene), m ∈ ns → m ∈ sess.lastSet →
      (namesOf sc).Nodup → (findArr sc m).isSome →
      pivotCoOfQ (ns.foldl (fun acc n =>
        if n ∈ sess.lastSet then setPivotVecQ acc n ((sess.snap n).pivotCo) else acc) sc) m =
        some ((sess.snap m).pivotCo) := by
  intro ns
  induction ns with
  | nil => intro sc hm; simp at hm
  | cons n rest ih =>
      intro sc hm hlast hnodup hex
      rw [List.foldl_cons]
      by_cases hmr : m ∈ rest
      · refine ih _ hmr hlast ?_ ?_
        · by_cases hn : n ∈ sess.lastSet
          · rw [if_pos hn, setPivot_names]
            exact hnodup
          · rw [if_neg hn]
            exact hnodup
        · rw [findArr_isSome_iff]
          rw [findArr_isSome_iff] at hex
          by_cases hn : n ∈ sess.lastSet
          · rw [if_pos hn, setPivot_names]
            exact hex
          · rw [if_neg hn]
            exact hex
      · have hmn : m = n := by
          cases List.mem_cons.mp hm with
          | inl h => exact h
          | inr h => exact absurd h hmr
        subst hmn
        rw [if_pos hlast, pivots_fold_pivot_preserve sess m rest _ hmr,
          setPivot_pivot_eq sc m _ hnodup hex]

/-- Helper: the removal fold keeps the attributes of untouched constructs. -/
theorem remove_fold_attrs (m : String) :
    ∀ (ks : List String) (sc : AScene), m ∉ ks →
      attrsObs (ks.foldl removeArrayQ sc) m = attrsObs sc m := by
  intro ks
  induction ks with
  | nil => intro sc _; rfl
  | cons k rest ih =>
      intro sc hm
      have hmr : m ∉ rest := fun h => hm (List.mem_cons_of_mem k h)
      have hmk : m ≠ k := fun h => hm (h ▸ List.mem_cons_self k rest)
      rw [List.foldl_cons, ih _ hmr, removeArray_attrs _ _ _ hmk]

/-- Helper: the removal fold keeps the pivot coordinates of untouched
constructs. -/
theorem remove_fold_pivot (m : String) :
    ∀ (ks : List String) (sc : AScene), m ∉ ks →
      pivotCoOfQ (ks.foldl removeArrayQ sc) m = pivotCoOfQ sc m := by
  intro ks
  induction ks with
  | nil => intro sc _; rfl
  | cons k rest ih =>
      intro sc hm
      have hmr : m ∉ rest := fun h => hm (List.mem_cons_of_mem k h)
      have hmk : m ≠ k := fun h => hm (h ▸ List.mem_cons_self k rest)
      rw [List.foldl_cons, ih _ hmr, removeArray_pivot _ _ _ hmk]

/-- Helper: the removal fold never resurrects an absent name. -/
theorem remove_fold_absent (j : String) :
    ∀ (ks : List String) (sc : AScene), findArr sc j = none →
      findArr (ks.foldl removeArrayQ sc) j = none := by
  intro ks
  induction ks with
  | nil => intro sc h; exact h
  | cons k rest ih =>
      intro sc h
      rw [List.foldl_cons]
      exact ih _ (removeArray_absent sc k j h)

/-- Helper: the removal fold deletes every listed construct. -/
theorem remove_fold_kills (k : String) :
    ∀ (ks : List String) (sc : AScene), k ∈ ks →
      findArr (ks.foldl removeArrayQ sc) k = none := by
  intro ks
  induction ks with
  | nil => intro sc h; simp at h
  | cons j rest ih =>
      intro sc hk
      rw [List.foldl_cons]
      by_cases hkr : k ∈ rest
      · exact ih _ hkr
      · have hkj : k = j := by
          cases List.mem_cons.mp hk with
          | inl h => exact h
          | inr h => exact absurd h hkr
        subst hkj
        exact remove_fold_absent k rest _ (removeArray_kills sc k)

/-- C3: canceling a modal session restores, for every modified construct
that existed before the session, the snapshot numeric parameters, enums and
cached orientation matrix, and the snapshot pivot coordinate; it removes
every construct created during the session; and it restores the object
origin to its pre-session value whenever no constructs remain afterwards.
Hypotheses: the scene construct names are unique, and every modified
construct name was recorded in the last-set-pivot-points map before the
restore (the modal writes this map on every pivot change it restores). -/
theorem C3_cancel_restores (sess : ASession) (sc : AScene)
    (hnodup : (namesOf sc).Nodup)
    (hml : ∀ x ∈ sess.modified, x ∈ sess.lastSet) :
    (∀ m ∈ sess.modified, m ∉ sess.newNames → (findArr sc m).isSome →
      attrsObs (cancelModal sess sc) m =
        some ((sess.snap m).spin_orientation, (sess.snap m).orientMx,
          (sess.snap m).props) ∧
      pivotCoOfQ (cancelModal sess sc) m = some ((sess.snap m).pivotCo)) ∧
    (∀ k ∈ sess.newNames, findArr (cancelModal sess sc) k = none) ∧
    ((cancelModal sess sc).arrays = [] →
      (cancelModal sess sc).originCo = sess.initialOrigin) := by
  refine ⟨?_, ?_, ?_⟩
  · intro m hm hnew hex
    have hex1 : (findArr (restoreAttrsQ sess sc) m).isSome := by
      rw [findArr_isSome_iff, restoreAttrs_names]
      rw [findArr_isSome_iff] at hex
      exact hex
    have hnd1 : (namesOf (restoreAttrsQ sess sc)).Nodup := by
      rw [restoreAttrs_names]
      exact hnodup
    constructor
    · show attrsObs (restoreObOriginQ sess (removeNewQ sess
        (restorePivotsQ sess (restoreAttrsQ sess sc)))) m = _
      rw [restoreOb_attrs]
      unfold removeNewQ
      rw [remove_fold_attrs m sess.newNames _ hnew]
      unfold restorePivotsQ
      rw [pivots_fold_attrs sess m sess.modified _]
      exact restoreAttrs_attrs_set sess sc m hm hnew hex
    · show pivotCoOfQ (restoreObOriginQ sess (removeNewQ sess
        (restorePivotsQ sess (restoreAttrsQ sess sc)))) m = _
      rw [restoreOb_pivot]
      unfold removeNewQ
      rw [remove_fold_pivot m sess.newNames _ hnew]
      unfold restorePivotsQ
      exact pivots_fold_pivot_set sess m sess.modified _ hm (hml m hm) hnd1 hex1
  · intro k hk
    show findArr (restoreObOriginQ sess (removeNewQ sess
      (restorePivotsQ sess (restoreAttrsQ sess sc)))) k = none
    rw [restoreOb_find]
    unfold removeNewQ
    exact remove_fold_kills k sess.newNames _ hk
  · intro hempty
    show (restoreObOriginQ sess (removeNewQ sess
      (restorePivotsQ sess (restoreAttrsQ sess sc)))).originCo = sess.initialOrigin
    unfold restoreObOriginQ
    split
    · rfl
    · rename_i h
      exfalso
      apply h
      have : (cancelModal sess sc).arrays = (removeNewQ sess
          (restorePivotsQ sess (restoreAttrsQ sess sc))).arrays := by
        unfold cancelModal restoreObOriginQ
        split <;> rfl
      rw [← this]
      exact hempty

/-- C3 witness: the cancellation theorem applied to the concrete scene with
a pre-existing construct A, edited during the session, below a construct B
created by the session: A gets its snapshot attributes and pivot back, B is
deleted. -/
theorem C3_cancel_restores_witness :
    ((namesOf c3SceneEx).Nodup ∧ ∀ x ∈ c3SessionEx.modified, x ∈ c3SessionEx.lastSet) ∧
    ((∀ m ∈ c3SessionEx.modified, m ∉ c3SessionEx.newNames →
        (findArr c3SceneEx m).isSome →
      attrsObs (cancelModal c3SessionEx c3SceneEx) m =
        some ((c3SessionEx.snap m).spin_orientation, (c3SessionEx.snap m).orientMx,
          (c3SessionEx.snap m).props) ∧
      pivotCoOfQ (cancelModal c3SessionEx c3SceneEx) m =
        some ((c3SessionEx.snap m).pivotCo)) ∧
    (∀ k ∈ c3SessionEx.newNames, findArr (cancelModal c3SessionEx c3SceneEx) k = none) ∧
    ((cancelModal c3SessionEx c3SceneEx).arrays = [] →
      (cancelModal c3SessionEx c3SceneEx).originCo = c3SessionEx.initialOrigin)) :=
  ⟨⟨by decide, by decide⟩, C3_cancel_restores c3SessionEx c3SceneEx (by decide) (by decide)⟩

end RadialDup
